import Mathlib

/-!
Verification development for the "Music or Death — Shotgun Edition" repository:
a shallow embedding of the catalog client (`musicService.ts`), the challenge
generator (`geminiService`), and the Round Controller state machine of the App
component, together with theorems settling the specification claims.

External effects (HTTP responses, the AI completion call, `Math.random`,
audio handles) are modelled as explicit parameters: outcome values for the
network/AI calls, index streams and permutation functions for the random
picks and shuffles.
-/

namespace MusicGame

/-- JS-style truthiness of an optional string: a missing value (`undefined`)
and the empty string are falsy, every other string is truthy. -/
def truthyStr : Option String → Bool
  | none => false
  | some s => !s.isEmpty

/-- Character-list prefix test (structural, so the kernel can evaluate it). -/
def charsPrefixOf : List Char → List Char → Bool
  | [], _ => true
  | _ :: _, [] => false
  | p :: ps, c :: cs => p == c && charsPrefixOf ps cs

/-- Substring-occurrence test on character lists. -/
def charsContains : List Char → List Char → Bool
  | [], pat => pat.isEmpty
  | c :: cs, pat => charsPrefixOf pat (c :: cs) || charsContains cs pat

/-- JS `String.prototype.includes`: `pat` occurs as a substring of `s`. -/
def strContains (s pat : String) : Bool :=
  charsContains s.toList pat.toList

/-- Replace the first occurrence of `pat` in `s` by `rep` (character lists). -/
def replaceFirstChars (pat rep : List Char) : List Char → List Char
  | [] => []
  | c :: cs =>
    if charsPrefixOf pat (c :: cs) then rep ++ (c :: cs).drop pat.length
    else c :: replaceFirstChars pat rep cs

/-- JS `String.prototype.replace` with a plain string pattern: only the first
occurrence is replaced. -/
def replaceFirst (s pat rep : String) : String :=
  ⟨replaceFirstChars pat.toList rep.toList s.toList⟩

/-- `types.ts` Track: `previewUrl` is optional. -/
structure Track where
  id : String
  name : String
  previewUrl : Option String
deriving DecidableEq

/-- `types.ts` Album. -/
structure Album where
  id : String
  name : String
  artist : String
  year : String
  imageUrl : String
deriving DecidableEq

/-- Placeholder used to model out-of-range JS indexing; all theorems carry
hypotheses keeping every index in range. -/
def dummyTrack : Track := { id := "", name := "", previewUrl := none }

def dummyAlbum : Album := { id := "", name := "", artist := "", year := "", imageUrl := "" }

inductive Difficulty
  | EASY
  | MEDIUM
  | HARD
deriving DecidableEq

inductive GameState
  | SEARCHING
  | ALBUM_SELECTION
  | PLAYING
  | GAME_OVER
  | SURVIVED
deriving DecidableEq

/-- `types.ts` GameChallenge. -/
structure GameChallenge where
  correctTrack : Track
  options : List Track
  snippetDescription : String
deriving DecidableEq

/-! ## Catalog Client (`src/services/musicService.ts`) -/

/-- Raw item of the track-lookup service response (`/lookup` results). -/
structure RawTrack where
  wrapperType : Option String
  kind : Option String
  trackId : Int
  trackName : String
  previewUrl : Option String
deriving DecidableEq

/-- Filter of `getAlbumTracks`: `item.wrapperType === 'track' || item.kind === 'song'`. -/
def isSongItem (t : RawTrack) : Bool :=
  t.wrapperType == some "track" || t.kind == some "song"

/-- Mapping step of `getAlbumTracks`:
`{ id: String(t.trackId), name: t.trackName, previewUrl: t.previewUrl ? t.previewUrl.replace("http://", "https://") : undefined }`. -/
def normTrack (t : RawTrack) : Track :=
  { id := toString t.trackId,
    name := t.trackName,
    previewUrl := if truthyStr t.previewUrl
                  then some (replaceFirst (t.previewUrl.getD "") "http://" "https://")
                  else none }

/-- Outcome of one `/lookup` fetch: a thrown network error, a non-ok HTTP
status, a body without `results`, or a result list. The first three all
produce `[]` in `fetchWithCountry`. -/
inductive LookupOutcome
  | fetchFail
  | httpNotOk
  | noResults
  | ok (items : List RawTrack)
deriving DecidableEq

/-- `fetchWithCountry` of `getAlbumTracks`: filter to song items, normalize,
then drop tracks whose (normalized) preview URL is falsy. -/
def attemptTracks (o : LookupOutcome) : List Track :=
  match o with
  | .ok items =>
    (((items.filter isSongItem).map normTrack).filter (fun t => truthyStr t.previewUrl))
  | _ => []

/-- `getAlbumTracks`: try the default storefront, then `US`, then `GB`, each
only while the previous attempt produced no playable track. -/
def getAlbumTracks (oDefault oUS oGB : LookupOutcome) : List Track :=
  let tracks := attemptTracks oDefault
  let tracks := if tracks.length = 0 then attemptTracks oUS else tracks
  let tracks := if tracks.length = 0 then attemptTracks oGB else tracks
  tracks

/-- Raw item of the album-search service response. -/
structure RawAlbumItem where
  collectionId : Option Int
  collectionName : Option String
  artistName : Option String
  releaseDate : Option String
  artworkUrl100 : Option String
deriving DecidableEq

/-- JS truthiness of an optional number: missing and `0` are falsy. -/
def truthyInt : Option Int → Bool
  | none => false
  | some n => n != 0

/-- Mapping step of `searchAlbums` from a raw search item to an `Album`. -/
def toAlbum (item : RawAlbumItem) : Album :=
  { id := toString (item.collectionId.getD 0),
    name := item.collectionName.getD "",
    artist := if truthyStr item.artistName then item.artistName.getD "" else "Unknown Artist",
    year := if truthyStr item.releaseDate
            then ⟨(item.releaseDate.getD "").toList.takeWhile (fun c => !(c == '-'))⟩
            else "N/A",
    imageUrl := if truthyStr item.artworkUrl100
                then replaceFirst (item.artworkUrl100.getD "") "100x100" "600x600"
                else "" }

/-- The album list built by `searchAlbums` before deduplication and sorting:
keep items with truthy `collectionId` and `collectionName`, then map. -/
def mappedAlbums (items : List RawAlbumItem) : List Album :=
  (items.filter (fun i => truthyInt i.collectionId && truthyStr i.collectionName)).map toAlbum

/-- Distinct keys in order of first occurrence, as produced by the key set of
a JS `Map` built by successive `set` calls. -/
def firstDistinctAux (seen : List String) : List String → List String
  | [] => []
  | x :: xs =>
    if x ∈ seen then firstDistinctAux seen xs
    else x :: firstDistinctAux (x :: seen) xs

def firstDistinct (l : List String) : List String :=
  firstDistinctAux [] l

/-- Last element of `l` whose id is `i` — the value a JS `Map` holds for key
`i` after inserting every element of `l` in order (computed as the first
match in the reversed list). -/
def lastWithId (l : List Album) (i : String) : Album :=
  (l.reverse.find? (fun a => decide (a.id = i))).getD dummyAlbum

/-- `Array.from(new Map(albums.map(a => [a.id, a])).values())`: keys keep the
position of their first occurrence, values are the last-seen occurrence. -/
def dedupLastWins (l : List Album) : List Album :=
  (firstDistinct (l.map (fun a => a.id))).map (lastWithId l)

/-- JS `parseInt` restricted to base-10 input: skip leading whitespace, read
an optional sign and then a leading digit run; no digits parses to `NaN`
(modelled as `none`). -/
def parseIntJS (s : String) : Option Int :=
  let cs := s.toList.dropWhile (fun c => c.isWhitespace)
  let core : List Char × Bool :=
    match cs with
    | '-' :: rest => (rest, true)
    | '+' :: rest => (rest, false)
    | rest => (rest, false)
  let ds := core.1.takeWhile (fun c => c.isDigit)
  if ds.isEmpty then none
  else
    let n : Int := Int.ofNat (ds.foldl (fun acc c => acc * 10 + (c.toNat - '0'.toNat)) 0)
    some (if core.2 then -n else n)

/-- The sort comparator `(a, b) => parseInt(b.year) - parseInt(a.year)`,
reduced to its strict "a sorts before b" reading: a negative comparator
value. A `NaN` operand makes the comparator value `NaN`, which the JS sort
treats as 0 (neither before nor after), hence `false` here. -/
def yearLt (a b : Album) : Bool :=
  match parseIntJS a.year, parseIntJS b.year with
  | some pa, some pb => pb < pa
  | _, _ => false

/-- Stable insertion step: `x` is placed before the first element it is
strictly less than, hence after every element comparing equal. -/
def insertByLt {α : Type} (lt : α → α → Bool) (x : α) : List α → List α
  | [] => [x]
  | y :: ys => if lt x y then x :: y :: ys else y :: insertByLt lt x ys

def sortJSAux {α : Type} (lt : α → α → Bool) (acc : List α) : List α → List α
  | [] => acc
  | x :: xs => sortJSAux lt (insertByLt lt x acc) xs

/-- Model of `Array.prototype.sort` with a comparator: a stable comparison
sort (the engine's sort is stable per the ECMAScript specification). -/
def sortJS {α : Type} (lt : α → α → Bool) (l : List α) : List α :=
  sortJSAux lt [] l

/-- Outcome of the album-search fetch. Everything except `ok` is caught and
collapsed to `[]` by `searchAlbums` (thrown network error, non-ok status,
body whose `results` is missing or not an array). -/
inductive SearchOutcome
  | fetchFail
  | httpNotOk
  | noResults
  | ok (items : List RawAlbumItem)
deriving DecidableEq

/-- `searchAlbums`: map and filter the raw items, deduplicate by id
(last-seen wins), sort by year descending; every failure yields `[]`. -/
def searchAlbums (o : SearchOutcome) : List Album :=
  match o with
  | .ok items => sortJS yearLt (dedupLastWins (mappedAlbums items))
  | _ => []

/-! ## Challenge Generator (`geminiService`, `getAlbumChallenge`) -/

/-- Structured AI completion reply per the response schema. -/
structure AIResponse where
  correctTrackName : String
  wrongTrackNames : List String
  vibeDescription : String
deriving DecidableEq

/-- A JS error value as inspected by the catch blocks: a `message` string
(modelled as always present, `""` for absent) and an optional numeric
`status` field. -/
structure JsError where
  message : String
  status : Option Int
deriving DecidableEq

/-- Outcome of the AI completion call (including response parsing). -/
inductive AIOutcome
  | success (resp : AIResponse)
  | failure (e : JsError)
deriving DecidableEq

/-- `{ id: t.id, name: t.name, previewUrl: t.previewUrl }` — the option
object built from a resolved track. -/
def mkOption (t : Track) : Track :=
  { id := t.id, name := t.name, previewUrl := t.previewUrl }

/-- Wrong-name resolution: exact name match, else a uniformly random track
(`spotifyTracks[Math.floor(Math.random() * spotifyTracks.length)]`,
modelled by the index `r % tracks.length`). -/
def aiResolveName (tracks : List Track) (r : Nat) (name : String) : Track :=
  match tracks.find? (fun t => decide (t.name = name)) with
  | some t => t
  | none => tracks.getD (r % tracks.length) dummyTrack

/-- AI success path of `getAlbumChallenge`: resolve the correct name
(falling back to `spotifyTracks[0]`), resolve each wrong name, assemble
`[correct, ...wrongs].slice(0, 4)` and shuffle. -/
def aiChallenge (tracks : List Track) (resp : AIResponse) (rs : Nat → Nat)
    (shufA : List Track → List Track) : GameChallenge :=
  let correct := match tracks.find? (fun t => decide (t.name = resp.correctTrackName)) with
                 | some t => t
                 | none => tracks.getD 0 dummyTrack
  let wrongs := resp.wrongTrackNames.enum.map (fun iv => mkOption (aiResolveName tracks (rs iv.1) iv.2))
  { correctTrack := mkOption correct,
    options := shufA ((mkOption correct :: wrongs).take 4),
    snippetDescription := resp.vibeDescription }

/-- Local fallback path of `getAlbumChallenge`: shuffle the tracks, first is
correct, `slice(1, 4)` are wrong, shuffle the options, synthesized Hebrew
description naming the album. -/
def fallbackChallenge (album : Album) (tracks : List Track)
    (shufF1 shufF2 : List Track → List Track) : GameChallenge :=
  let shuffled := shufF1 tracks
  let correct := shuffled.getD 0 dummyTrack
  let wrong := (shuffled.drop 1).take 3
  { correctTrack := mkOption correct,
    options := shufF2 (correct :: wrong),
    snippetDescription := "מצב הישרדות: זהה את השיר מהאלבום " ++ album.name }

/-- `getAlbumChallenge`: the AI success path, or — on failure — re-throw
exactly when the error message contains `"quota"` or `"429"`, else the local
fallback. Note the generator inspects only `error.message`, never a numeric
`status` field. -/
def getAlbumChallenge (album : Album) (tracks : List Track) (outcome : AIOutcome)
    (rs : Nat → Nat) (shufA shufF1 shufF2 : List Track → List Track) :
    Except JsError GameChallenge :=
  match outcome with
  | .success resp => .ok (aiChallenge tracks resp rs shufA)
  | .failure e =>
    if strContains e.message "quota" || strContains e.message "429" then .error e
    else .ok (fallbackChallenge album tracks shufF1 shufF2)

/-! ## Round Controller (App component, `src/unnamed/part_000`) -/

/-- The React session state owned by the App component, restricted to the
fields the claims are about, plus the two durable-storage cells
(`sonic_roulette_highscore`, `sonic_roulette_completed`). Presentation-only
fields (status messages, loading spinner, language) are omitted. -/
structure SessionState where
  gameState : GameState
  difficulty : Difficulty
  score : Nat
  highScore : Nat
  storedHighScore : Nat
  completedAlbums : List String
  storedCompleted : List String
  selectedSource : Option Album
  challenge : Option GameChallenge
  lastCorrectTrack : Option String
  currentAlbumTracks : List Track
  playedTrackIds : List String
  replaysRemaining : Nat
  isFiring : Bool
  isVictory : Bool
  isAudioPlaying : Bool
  isQuotaError : Bool
  hasNoSamplesError : Bool
  pendingGameOverDelay : Option Nat
deriving DecidableEq

/-- The random draws of one round-start: the AI call outcome, the random
index stream for unresolved wrong names, the three shuffles of
`getAlbumChallenge`, the self-healing splice shuffle, and the random index
for the self-healing replacement pick. -/
structure RoundParams where
  outcome : AIOutcome
  rs : Nat → Nat
  shufA : List Track → List Track
  shufF1 : List Track → List Track
  shufF2 : List Track → List Track
  shufHeal : List Track → List Track
  pick : Nat

/-- A shuffle stands for `sort(() => Math.random() - 0.5)`: some permutation
of its input. -/
def permFun (f : List Track → List Track) : Prop :=
  ∀ l, List.Perm (f l) l

/-- The AI outcome does not make `getAlbumChallenge` re-throw. -/
def chalOkB : AIOutcome → Bool
  | .success _ => true
  | .failure e => !(strContains e.message "quota" || strContains e.message "429")

def goodParams (p : RoundParams) : Prop :=
  permFun p.shufA ∧ permFun p.shufF1 ∧ permFun p.shufF2 ∧ permFun p.shufHeal ∧
    chalOkB p.outcome = true

/-- JS `Set.prototype.add`, on the insertion-ordered id list. -/
def addId (s : List String) (i : String) : List String :=
  if i ∈ s then s else s ++ [i]

/-- `markAlbumComplete`: append the id and write the completed ledger to
storage, unless the id is already present (then both are left untouched). -/
def markAlbumCompleteS (st : SessionState) (i : String) : SessionState :=
  if i ∈ st.completedAlbums then st
  else
    let nc := st.completedAlbums ++ [i]
    { st with completedAlbums := nc, storedCompleted := nc }

/-- `tracks.filter(t => !localPlayedIds.has(t.id.toString()))`. -/
def remainingOf (tracks : List Track) (played : List String) : List Track :=
  tracks.filter (fun t => decide (t.id ∉ played))

/-- The self-healing check of `startChallenge`: if the generator's correct
track is already played or lacks a preview, replace it by a uniformly random
remaining track, and splice the replacement in (over the 4th option, then
re-shuffle) when no option carries its id. -/
def healChallenge (chal : GameChallenge) (remaining : List Track)
    (played : List String) (p : RoundParams) : GameChallenge :=
  if decide (chal.correctTrack.id ∈ played) || !truthyStr chal.correctTrack.previewUrl then
    let fc := remaining.getD (p.pick % remaining.length) dummyTrack
    let opts := if chal.options.any (fun o => decide (o.id = fc.id))
                then chal.options
                else p.shufHeal (fc :: chal.options.take 3)
    { correctTrack := fc, options := opts, snippetDescription := chal.snippetDescription }
  else chal

/-- The round-start tail of `startChallenge` (from the `remainingTracks`
computation on): exhaustion check and SURVIVED transition, challenge fetch,
self-healing, then PLAYING with the snippet started. `snapSel` is the
render-captured `selectedSource` read by the SURVIVED branch. -/
def roundStart (st : SessionState) (album : Album) (tracks : List Track)
    (played : List String) (snapSel : Option Album) (p : RoundParams) : SessionState :=
  let remaining := remainingOf tracks played
  if remaining.isEmpty then
    let st1 := { st with gameState := GameState.SURVIVED }
    match snapSel with
    | some src => markAlbumCompleteS st1 src.id
    | none => st1
  else
    match getAlbumChallenge album tracks p.outcome p.rs p.shufA p.shufF1 p.shufF2 with
    | .ok chal =>
      let healed := healChallenge chal remaining played p
      { st with challenge := some healed,
                lastCorrectTrack := some healed.correctTrack.name,
                gameState := GameState.PLAYING,
                isAudioPlaying := true }
    | .error e =>
      if strContains e.message "quota" || decide (e.status = some (429 : Int))
      then { st with isQuotaError := true }
      else st

/-- Outcome of the `getAlbumTracks` call inside `startChallenge`. -/
inductive FetchOutcome
  | err
  | ok (fetched : List Track)
deriving DecidableEq

/-- `startChallenge`: clear both error flags; on a new album fetch the
tracks, filter to playable ones (empty → no-samples error), reset the played
set and replay budget; then run the round-start tail. -/
def startChallenge (st : SessionState) (album : Album) (isNewAlbum : Bool)
    (fetch : FetchOutcome) (p : RoundParams) : SessionState :=
  let st0 := { st with isQuotaError := false, hasNoSamplesError := false }
  if isNewAlbum then
    match fetch with
    | .err => { st0 with selectedSource := some album }
    | .ok fetched =>
      let tracks := fetched.filter (fun t => truthyStr t.previewUrl)
      if tracks.isEmpty then
        { st0 with selectedSource := some album, hasNoSamplesError := true }
      else
        roundStart { st0 with selectedSource := some album,
                              currentAlbumTracks := tracks,
                              playedTrackIds := [],
                              replaysRemaining := 2 }
          album tracks [] st.selectedSource p
  else
    roundStart st0 album st0.currentAlbumTracks st0.playedTrackIds st.selectedSource p

/-- `difficulty === HARD ? 200 : difficulty === MEDIUM ? 100 : 50`. -/
def points : Difficulty → Nat
  | .HARD => 200
  | .MEDIUM => 100
  | .EASY => 50

/-- Fixed delay of the wrong-answer `setTimeout` before GAME_OVER. -/
def gameOverDelayMs : Nat := 1500

/-- `handleAnswer`: no-op while firing, after victory, or without a
challenge; otherwise judge the chosen track against the correct id. -/
def handleAnswer (st : SessionState) (tr : Track) : SessionState :=
  match st.challenge with
  | none => st
  | some c =>
    if st.isFiring || st.isVictory then st
    else if tr.id = c.correctTrack.id then
      { st with isVictory := true,
                score := st.score + points st.difficulty,
                isAudioPlaying := true,
                playedTrackIds := addId st.playedTrackIds tr.id }
    else
      { st with isFiring := true,
                isAudioPlaying := false,
                pendingGameOverDelay := some gameOverDelayMs }

/-- The `useEffect` reacting to a score change (`part_000` lines 59-65):
raise `highScore` to `score` and persist it immediately when it increased. -/
def applyScoreEffect (st : SessionState) : SessionState :=
  if st.highScore < st.score
  then { st with highScore := st.score, storedHighScore := st.score }
  else st

/-- `handleReplay`: gated on replay budget, no audio playing, round not won,
and an existing challenge; restarts the snippet. -/
def handleReplay (st : SessionState) : SessionState :=
  if st.replaysRemaining > 0 && !st.isAudioPlaying && !st.isVictory && st.challenge.isSome
  then { st with replaysRemaining := st.replaysRemaining - 1, isAudioPlaying := true }
  else st

/-- The wrong-answer `setTimeout(() => setGameState(GameState.GAME_OVER), 1500)`
callback: unconditional. -/
def gameOverTimerFire (st : SessionState) : SessionState :=
  { st with gameState := GameState.GAME_OVER }

/-- The snippet-duration timer: pause audio unless the round was already won
(the `audioRef.current === audio` staleness check is abstracted away — a
stale timer is a no-op on the then-current audio flag either way). -/
def snippetTimerFire (st : SessionState) : SessionState :=
  if st.isVictory then st else { st with isAudioPlaying := false }

/-- `nextRound`: clear the per-round flags, then start the next round within
the current album. -/
def nextRound (st : SessionState) (p : RoundParams) : SessionState :=
  let st1 := { st with isVictory := false, isFiring := false, isAudioPlaying := false }
  match st1.selectedSource with
  | some src => startChallenge st1 src false FetchOutcome.err p
  | none => st1

/-- `resetGame`: clears the session but not the durable ledgers. -/
def resetGame (st : SessionState) : SessionState :=
  { st with gameState := GameState.SEARCHING,
            score := 0,
            isFiring := false,
            isVictory := false,
            isAudioPlaying := false,
            isQuotaError := false,
            hasNoSamplesError := false,
            playedTrackIds := [],
            currentAlbumTracks := [],
            replaysRemaining := 2 }

/-- The user/async intents that drive the state machine within one session
(reset, which ends the session's score lifetime, is deliberately excluded
from this alphabet). -/
inductive Event
  | answer (tr : Track)
  | next (p : RoundParams)
  | start (album : Album) (isNewAlbum : Bool) (fetch : FetchOutcome) (p : RoundParams)
  | replay
  | snippetTimer
  | gameOverTimer

/-- Dispatch one intent through its handler. -/
def handleEvent (st : SessionState) : Event → SessionState
  | .answer tr => handleAnswer st tr
  | .next p => nextRound st p
  | .start album isNew fetch p => startChallenge st album isNew fetch p
  | .replay => handleReplay st
  | .snippetTimer => snippetTimerFire st
  | .gameOverTimer => gameOverTimerFire st

/-- One run-to-completion step: the handler, then the score effect React
runs on the resulting commit. -/
def step (st : SessionState) (e : Event) : SessionState :=
  applyScoreEffect (handleEvent st e)

def runEvents (st : SessionState) (evs : List Event) : SessionState :=
  evs.foldl step st

/-- The score observed after each step of a trace. -/
def traceScores (st : SessionState) : List Event → List Nat
  | [] => []
  | e :: es => (step st e).score :: traceScores (step st e) es

/-- One fully played round for the exhaustion scenario: answer the round's
correct track, then the next-round intent. -/
def correctRoundStep (st : SessionState) (p : RoundParams) : SessionState :=
  match st.challenge with
  | some c => nextRound (handleAnswer st c.correctTrack) p
  | none => st

def playFrom (st : SessionState) : List RoundParams → SessionState
  | [] => st
  | p :: ps => playFrom (correctRoundStep st p) ps

/-! ## Generic list lemmas -/

theorem getD_mem_of_lt {α : Type} (l : List α) (n : Nat) (d : α) (h : n < l.length) :
    l.getD n d ∈ l := by
  induction l generalizing n with
  | nil => simp at h
  | cons x xs ih =>
    cases n with
    | zero => simp [List.getD_cons_zero]
    | succ m =>
      rw [List.getD_cons_succ]
      exact List.mem_cons_of_mem _ (ih m (by simpa using h))

theorem mem_insertByLt {α : Type} (lt : α → α → Bool) (x : α) (l : List α) (z : α) :
    z ∈ insertByLt lt x l ↔ z = x ∨ z ∈ l := by
  induction l with
  | nil => simp [insertByLt]
  | cons y ys ih =>
    simp only [insertByLt]
    split
    · simp [List.mem_cons]
    · simp only [List.mem_cons, ih]
      tauto

theorem perm_insertByLt {α : Type} (lt : α → α → Bool) (x : α) (l : List α) :
    List.Perm (insertByLt lt x l) (x :: l) := by
  induction l with
  | nil => simp [insertByLt]
  | cons y ys ih =>
    simp only [insertByLt]
    split
    · exact List.Perm.refl _
    · exact (ih.cons y).trans (List.Perm.swap x y ys)

theorem perm_sortJSAux {α : Type} (lt : α → α → Bool) (l acc : List α) :
    List.Perm (sortJSAux lt acc l) (acc ++ l) := by
  induction l generalizing acc with
  | nil => simp [sortJSAux]
  | cons x xs ih =>
    simp only [sortJSAux]
    refine (ih (insertByLt lt x acc)).trans ?_
    refine (List.Perm.append_right xs (perm_insertByLt lt x acc)).trans ?_
    exact List.perm_middle.symm

theorem perm_sortJS {α : Type} (lt : α → α → Bool) (l : List α) :
    List.Perm (sortJS lt l) l := by
  simpa using perm_sortJSAux lt l []

theorem pairwise_insertByLt {α : Type} (lt : α → α → Bool) (P : α → Prop)
    (hasym : ∀ a b, lt a b = true → lt b a = false)
    (htrans : ∀ a b c, P a → P b → P c →
      lt b a = false → lt c b = false → lt c a = false)
    (x : α) (hx : P x) (acc : List α) (hacc : ∀ a ∈ acc, P a)
    (hs : List.Pairwise (fun a b => lt b a = false) acc) :
    List.Pairwise (fun a b => lt b a = false) (insertByLt lt x acc) := by
  induction acc with
  | nil => simp [insertByLt]
  | cons y ys ih =>
    rcases List.pairwise_cons.mp hs with ⟨hy, hys⟩
    simp only [insertByLt]
    split
    · next hlt =>
      refine List.pairwise_cons.mpr ⟨?_, hs⟩
      intro z hz
      rcases List.mem_cons.mp hz with rfl | hz
      · exact hasym x z hlt
      · exact htrans x y z hx (hacc y (List.mem_cons_self y ys)) (hacc z (List.mem_cons_of_mem y hz))
          (hasym x y hlt) (hy z hz)
    · next hlt =>
      have hxy : lt x y = false := by
        cases h : lt x y
        · rfl
        · exact absurd h hlt
      refine List.pairwise_cons.mpr ⟨?_, ?_⟩
      · intro z hz
        rcases (mem_insertByLt lt x ys z).mp hz with rfl | hz
        · exact hxy
        · exact hy z hz
      · exact ih (fun a ha => hacc a (List.mem_cons_of_mem y ha)) hys

theorem pairwise_sortJSAux {α : Type} (lt : α → α → Bool) (P : α → Prop)
    (hasym : ∀ a b, lt a b = true → lt b a = false)
    (htrans : ∀ a b c, P a → P b → P c →
      lt b a = false → lt c b = false → lt c a = false)
    (l : List α) (hl : ∀ a ∈ l, P a) (acc : List α) (hacc : ∀ a ∈ acc, P a)
    (hs : List.Pairwise (fun a b => lt b a = false) acc) :
    List.Pairwise (fun a b => lt b a = false) (sortJSAux lt acc l) := by
  induction l generalizing acc with
  | nil => exact hs
  | cons x xs ih =>
    simp only [sortJSAux]
    refine ih (fun a ha => hl a (List.mem_cons_of_mem x ha)) (insertByLt lt x acc) ?_ ?_
    · intro a ha
      rcases (mem_insertByLt lt x acc a).mp ha with rfl | ha
      · exact hl a (List.mem_cons_self a xs)
      · exact hacc a ha
    · exact pairwise_insertByLt lt P hasym htrans x (hl x (List.mem_cons_self x xs)) acc hacc hs

theorem pairwise_sortJS {α : Type} (lt : α → α → Bool) (P : α → Prop)
    (hasym : ∀ a b, lt a b = true → lt b a = false)
    (htrans : ∀ a b c, P a → P b → P c →
      lt b a = false → lt c b = false → lt c a = false)
    (l : List α) (hl : ∀ a ∈ l, P a) :
    List.Pairwise (fun a b => lt b a = false) (sortJS lt l) :=
  pairwise_sortJSAux lt P hasym htrans l hl [] (by simp) (by simp)

theorem mem_firstDistinctAux (seen l : List String) (x : String) :
    x ∈ firstDistinctAux seen l ↔ x ∈ l ∧ x ∉ seen := by
  induction l generalizing seen with
  | nil => simp [firstDistinctAux]
  | cons y ys ih =>
    simp only [firstDistinctAux]
    split
    · next hy =>
      rw [ih]
      simp only [List.mem_cons]
      constructor
      · rintro ⟨h1, h2⟩
        exact ⟨Or.inr h1, h2⟩
      · rintro ⟨h1 | h1, h2⟩
        · exact absurd (h1 ▸ hy) h2
        · exact ⟨h1, h2⟩
    · next hy =>
      simp only [List.mem_cons, ih (y :: seen)]
      by_cases hxy : x = y
      · subst hxy
        simp [hy]
      · simp only [List.mem_cons, hxy, false_or]

theorem nodup_firstDistinctAux (seen l : List String) :
    (firstDistinctAux seen l).Nodup := by
  induction l generalizing seen with
  | nil => simp [firstDistinctAux]
  | cons y ys ih =>
    simp only [firstDistinctAux]
    split
    · exact ih seen
    · refine List.nodup_cons.mpr ⟨?_, ih (y :: seen)⟩
      rw [mem_firstDistinctAux]
      simp

theorem mem_firstDistinct (l : List String) (x : String) :
    x ∈ firstDistinct l ↔ x ∈ l := by
  rw [firstDistinct, mem_firstDistinctAux]
  simp

theorem nodup_firstDistinct (l : List String) : (firstDistinct l).Nodup :=
  nodup_firstDistinctAux [] l

theorem id_injOn_of_nodup (tracks : List Track)
    (h : (tracks.map (fun t => t.id)).Nodup) :
    ∀ a ∈ tracks, ∀ b ∈ tracks, a.id = b.id → a = b := by
  intro a ha b hb hab
  exact List.inj_on_of_nodup_map h ha hb hab

theorem lastWithId_spec (l : List Album) (i : String) (h : ∃ a ∈ l, a.id = i) :
    (lastWithId l i).id = i ∧ lastWithId l i ∈ l := by
  obtain ⟨a, ha, hai⟩ := h
  have hex : ∃ b ∈ l.reverse, (fun a => decide (a.id = i)) b = true := by
    exact ⟨a, List.mem_reverse.mpr ha, by simp [hai]⟩
  obtain ⟨b, hfind⟩ := Option.isSome_iff_exists.mp (List.find?_isSome.mpr hex)
  have hid : b.id = i := by simpa using List.find?_some hfind
  have hbl : b ∈ l := List.mem_reverse.mp (List.mem_of_find?_eq_some hfind)
  rw [lastWithId, hfind]
  exact ⟨hid, hbl⟩

/-! ## Challenge-generator lemmas -/

/-- Well-formedness a challenge returned by `getAlbumChallenge` always has:
correct track drawn from the track list and present among the options, all
options drawn from the track list, and between 1 and 4 options. -/
def chalWF (tracks : List Track) (c : GameChallenge) : Prop :=
  c.correctTrack ∈ tracks ∧ c.correctTrack ∈ c.options ∧
    (∀ o ∈ c.options, o ∈ tracks) ∧ 1 ≤ c.options.length ∧ c.options.length ≤ 4

theorem mkOption_eq (t : Track) : mkOption t = t := rfl

theorem aiResolveName_mem (tracks : List Track) (r : Nat) (name : String)
    (htr : tracks ≠ []) : aiResolveName tracks r name ∈ tracks := by
  unfold aiResolveName
  cases hf : tracks.find? (fun t => decide (t.name = name)) with
  | some t => exact List.mem_of_find?_eq_some hf
  | none =>
    exact getD_mem_of_lt tracks _ dummyTrack
      (Nat.mod_lt r (List.length_pos.mpr htr))

theorem aiChallenge_spec (tracks : List Track) (resp : AIResponse) (rs : Nat → Nat)
    (shufA : List Track → List Track) (htr : tracks ≠ []) (hA : permFun shufA) :
    chalWF tracks (aiChallenge tracks resp rs shufA) := by
  unfold aiChallenge chalWF
  set correct := (match tracks.find? (fun t => decide (t.name = resp.correctTrackName)) with
                  | some t => t
                  | none => tracks.getD 0 dummyTrack) with hcorrect
  have hcm : correct ∈ tracks := by
    rw [hcorrect]
    cases hf : tracks.find? (fun t => decide (t.name = resp.correctTrackName)) with
    | some t => exact List.mem_of_find?_eq_some hf
    | none => exact getD_mem_of_lt tracks 0 dummyTrack (List.length_pos.mpr htr)
  set wrongs := resp.wrongTrackNames.enum.map
    (fun iv => mkOption (aiResolveName tracks (rs iv.1) iv.2)) with hwrongs
  have hwm : ∀ w ∈ wrongs, w ∈ tracks := by
    intro w hw
    rw [hwrongs] at hw
    obtain ⟨iv, _, rfl⟩ := List.mem_map.mp hw
    rw [mkOption_eq]
    exact aiResolveName_mem tracks _ _ htr
  have hperm := hA ((mkOption correct :: wrongs).take 4)
  simp only [mkOption_eq] at *
  have hhead : correct ∈ (correct :: wrongs).take 4 := by
    rw [List.take_succ_cons]
    exact List.mem_cons_self _ _
  refine ⟨hcm, hperm.mem_iff.mpr hhead, ?_, ?_, ?_⟩
  · intro o ho
    have := hperm.subset ho
    rcases List.mem_cons.mp (List.take_subset 4 _ this) with rfl | h
    · exact hcm
    · exact hwm o h
  · rw [hperm.length_eq, List.length_take]
    simp
  · rw [hperm.length_eq, List.length_take]
    exact Nat.min_le_left _ _

theorem fallbackChallenge_spec (album : Album) (tracks : List Track)
    (shufF1 shufF2 : List Track → List Track) (htr : tracks ≠ [])
    (h1 : permFun shufF1) (h2 : permFun shufF2) :
    chalWF tracks (fallbackChallenge album tracks shufF1 shufF2) ∧
      (fallbackChallenge album tracks shufF1 shufF2).options.length =
        min 4 tracks.length := by
  unfold fallbackChallenge chalWF
  have hp1 := h1 tracks
  have hlen1 : (shufF1 tracks).length = tracks.length := hp1.length_eq
  have hne1 : shufF1 tracks ≠ [] := by
    intro h
    rw [h] at hp1
    exact htr (hp1.symm.eq_nil)
  set shuffled := shufF1 tracks with hsh
  set correct := shuffled.getD 0 dummyTrack with hc
  have hcm : correct ∈ tracks := by
    rw [hc]
    exact hp1.subset (getD_mem_of_lt shuffled 0 dummyTrack (List.length_pos.mpr hne1))
  set wrong := (shuffled.drop 1).take 3 with hw
  have hwm : ∀ w ∈ wrong, w ∈ tracks := by
    intro w hmem
    rw [hw] at hmem
    exact hp1.subset (List.drop_subset 1 _ (List.take_subset 3 _ hmem))
  have hperm := h2 (correct :: wrong)
  simp only [mkOption_eq]
  have hlenw : wrong.length = min 3 (tracks.length - 1) := by
    rw [hw, List.length_take, List.length_drop, hlen1]
  have htl : 1 ≤ tracks.length := List.length_pos.mpr htr
  refine ⟨⟨hcm, hperm.mem_iff.mpr (List.mem_cons_self _ _), ?_, ?_, ?_⟩, ?_⟩
  · intro o ho
    rcases List.mem_cons.mp (hperm.subset ho) with rfl | h
    · exact hcm
    · exact hwm o h
  · rw [hperm.length_eq]
    simp
  · rw [hperm.length_eq, List.length_cons, hlenw]
    omega
  · rw [hperm.length_eq, List.length_cons, hlenw]
    omega

theorem getAlbumChallenge_ok_spec (album : Album) (tracks : List Track)
    (outcome : AIOutcome) (rs : Nat → Nat) (shufA shufF1 shufF2 : List Track → List Track)
    (htr : tracks ≠ []) (hA : permFun shufA) (h1 : permFun shufF1) (h2 : permFun shufF2)
    (hok : chalOkB outcome = true) :
    ∃ chal, getAlbumChallenge album tracks outcome rs shufA shufF1 shufF2 = .ok chal ∧
      chalWF tracks chal := by
  cases outcome with
  | success resp =>
    exact ⟨_, rfl, aiChallenge_spec tracks resp rs shufA htr hA⟩
  | failure e =>
    have hq : (strContains e.message "quota" || strContains e.message "429") = false := by
      simpa [chalOkB] using hok
    refine ⟨_, ?_, (fallbackChallenge_spec album tracks shufF1 shufF2 htr h1 h2).1⟩
    simp [getAlbumChallenge, hq]

theorem getAlbumChallenge_error_iff (album : Album) (tracks : List Track)
    (outcome : AIOutcome) (rs : Nat → Nat) (shufA shufF1 shufF2 : List Track → List Track)
    (e : JsError) :
    getAlbumChallenge album tracks outcome rs shufA shufF1 shufF2 = .error e ↔
      outcome = .failure e ∧
        (strContains e.message "quota" = true ∨ strContains e.message "429" = true) := by
  cases outcome with
  | success resp => simp [getAlbumChallenge]
  | failure e' =>
    simp only [getAlbumChallenge]
    by_cases hq : (strContains e'.message "quota" || strContains e'.message "429") = true
    · rw [if_pos hq]
      simp only [Bool.or_eq_true] at hq
      constructor
      · rintro h
        cases h
        exact ⟨rfl, hq⟩
      · rintro ⟨h, -⟩
        cases h
        rfl
    · rw [if_neg hq]
      simp only [Bool.or_eq_true] at hq
      push_neg at hq
      constructor
      · rintro h
        cases h
      · rintro ⟨h, hcontra⟩
        cases h
        rcases hcontra with h' | h'
        · exact absurd h' (by simpa using hq.1)
        · exact absurd h' (by simpa using hq.2)

/-! ## Self-healing and round-start lemmas -/

theorem healChallenge_spec (chal : GameChallenge) (tracks : List Track)
    (played : List String) (p : RoundParams)
    (hrem : remainingOf tracks played ≠ [])
    (hnodup : (tracks.map (fun t => t.id)).Nodup)
    (htruthy : ∀ t ∈ tracks, truthyStr t.previewUrl = true)
    (hH : permFun p.shufHeal)
    (hc : chalWF tracks chal) (h : GameChallenge)
    (hdef : h = healChallenge chal (remainingOf tracks played) played p) :
    h.correctTrack ∈ tracks ∧ h.correctTrack.id ∉ played ∧
      truthyStr h.correctTrack.previewUrl = true ∧
      h.correctTrack ∈ h.options ∧ (∀ o ∈ h.options, o ∈ tracks) ∧
      1 ≤ h.options.length ∧ h.options.length ≤ 4 := by
  obtain ⟨hcm, hco, hos, hl1, hl4⟩ := hc
  unfold healChallenge at hdef
  by_cases hheal :
      (decide (chal.correctTrack.id ∈ played) || !truthyStr chal.correctTrack.previewUrl) = true
  · -- healing branch: replace the correct track by a random remaining one
    rw [if_pos hheal] at hdef
    dsimp only [] at hdef
    set remaining := remainingOf tracks played with hremdef
    set fc := remaining.getD (p.pick % remaining.length) dummyTrack with hfc
    have hfcr : fc ∈ remaining := by
      rw [hfc]
      exact getD_mem_of_lt remaining _ dummyTrack
        (Nat.mod_lt p.pick (List.length_pos.mpr hrem))
    have hfct : fc ∈ tracks := List.mem_of_mem_filter hfcr
    have hfcp : fc.id ∉ played := by
      have := List.of_mem_filter hfcr
      simpa using this
    have hfctruthy := htruthy fc hfct
    by_cases hany : chal.options.any (fun o => decide (o.id = fc.id)) = true
    · -- an option already carries the replacement's id
      rw [if_pos hany] at hdef
      obtain ⟨o, ho, hoid⟩ := List.any_eq_true.mp hany
      have hoid' : o.id = fc.id := of_decide_eq_true hoid
      have hofc : o = fc := id_injOn_of_nodup tracks hnodup o (hos o ho) fc hfct hoid'
      subst hdef
      exact ⟨hfct, hfcp, hfctruthy, hofc ▸ ho, hos, hl1, hl4⟩
    · -- splice the replacement in over the 4th option and re-shuffle
      rw [if_neg hany] at hdef
      have hperm := hH (fc :: chal.options.take 3)
      subst hdef
      refine ⟨hfct, hfcp, hfctruthy, hperm.mem_iff.mpr (List.mem_cons_self _ _), ?_, ?_, ?_⟩
      · intro o ho
        rcases List.mem_cons.mp (hperm.subset ho) with rfl | hmem
        · exact hfct
        · exact hos o (List.take_subset 3 _ hmem)
      · rw [hperm.length_eq]
        simp
      · rw [hperm.length_eq, List.length_cons, List.length_take]
        omega
  · -- no healing needed: the generator's correct track is fresh and playable
    rw [if_neg hheal] at hdef
    simp only [Bool.or_eq_true, decide_eq_true_eq, Bool.not_eq_true',
      Bool.not_eq_false] at hheal
    push_neg at hheal
    subst hdef
    exact ⟨hcm, hheal.1, eq_true_of_ne_false hheal.2, hco, hos, hl1, hl4⟩

theorem remainingOf_ne_nil_tracks_ne_nil (tracks : List Track) (played : List String)
    (h : remainingOf tracks played ≠ []) : tracks ≠ [] := by
  intro hnil
  subst hnil
  exact h rfl

/-- On a non-exhausted album with a non-re-throwing generator outcome, the
round-start tail installs a healed challenge, records its correct track name,
moves to PLAYING and starts the snippet — and the healed challenge satisfies
the self-healing guarantees. -/
theorem roundStart_success (st : SessionState) (album : Album) (tracks : List Track)
    (played : List String) (snapSel : Option Album) (p : RoundParams)
    (hrem : remainingOf tracks played ≠ [])
    (hnodup : (tracks.map (fun t => t.id)).Nodup)
    (htruthy : ∀ t ∈ tracks, truthyStr t.previewUrl = true)
    (hgp : goodParams p) :
    ∃ healed,
      roundStart st album tracks played snapSel p =
        { st with challenge := some healed,
                  lastCorrectTrack := some healed.correctTrack.name,
                  gameState := GameState.PLAYING,
                  isAudioPlaying := true } ∧
      healed.correctTrack ∈ tracks ∧ healed.correctTrack.id ∉ played ∧
      truthyStr healed.correctTrack.previewUrl = true ∧
      healed.correctTrack ∈ healed.options ∧ (∀ o ∈ healed.options, o ∈ tracks) ∧
      1 ≤ healed.options.length ∧ healed.options.length ≤ 4 := by
  obtain ⟨hA, h1, h2, hH, hok⟩ := hgp
  have htr : tracks ≠ [] := remainingOf_ne_nil_tracks_ne_nil tracks played hrem
  obtain ⟨chal, hchal, hwf⟩ :=
    getAlbumChallenge_ok_spec album tracks p.outcome p.rs p.shufA p.shufF1 p.shufF2
      htr hA h1 h2 hok
  have hne : (remainingOf tracks played).isEmpty = false := by
    cases hr : remainingOf tracks played with
    | nil => exact absurd hr hrem
    | cons a l => rfl
  refine ⟨healChallenge chal (remainingOf tracks played) played p, ?_, ?_⟩
  · unfold roundStart
    dsimp only []
    rw [hne]
    simp only [Bool.false_eq_true, if_false, hchal]
  · exact healChallenge_spec chal tracks played p hrem hnodup htruthy hH hwf _ rfl

/-- On an exhausted album the round-start tail transitions to SURVIVED and
(idempotently) marks the captured selected album complete. -/
theorem roundStart_exhausted (st : SessionState) (album : Album) (tracks : List Track)
    (played : List String) (snapSel : Option Album) (p : RoundParams)
    (hrem : remainingOf tracks played = []) :
    roundStart st album tracks played snapSel p =
      (match snapSel with
       | some src => markAlbumCompleteS { st with gameState := GameState.SURVIVED } src.id
       | none => { st with gameState := GameState.SURVIVED }) := by
  unfold roundStart
  dsimp only []
  rw [hrem]
  rfl

/-- If the generator re-throws an error whose message contains `"quota"` or
whose numeric status is 429, the round-start tail only latches the
quota-error flag. -/
theorem roundStart_quota (st : SessionState) (album : Album) (tracks : List Track)
    (played : List String) (snapSel : Option Album) (p : RoundParams) (e : JsError)
    (hrem : remainingOf tracks played ≠ [])
    (herr : getAlbumChallenge album tracks p.outcome p.rs p.shufA p.shufF1 p.shufF2 = .error e)
    (hq : strContains e.message "quota" = true ∨ e.status = some 429) :
    roundStart st album tracks played snapSel p = { st with isQuotaError := true } := by
  have hne : (remainingOf tracks played).isEmpty = false := by
    cases hr : remainingOf tracks played with
    | nil => exact absurd hr hrem
    | cons a l => rfl
  have hcond : (strContains e.message "quota" || decide (e.status = some (429 : Int))) = true := by
    rcases hq with h | h
    · simp [h]
    · simp [h]
  unfold roundStart
  dsimp only []
  rw [hne]
  simp only [Bool.false_eq_true, if_false, herr, hcond, if_pos]

theorem startChallenge_false_eq (st : SessionState) (album : Album)
    (fetch : FetchOutcome) (p : RoundParams) :
    startChallenge st album false fetch p =
      roundStart { st with isQuotaError := false, hasNoSamplesError := false }
        album st.currentAlbumTracks st.playedTrackIds st.selectedSource p := rfl

theorem startChallenge_true_ok_eq (st : SessionState) (album : Album)
    (fetched : List Track) (p : RoundParams)
    (htr : fetched.filter (fun t => truthyStr t.previewUrl) ≠ []) :
    startChallenge st album true (.ok fetched) p =
      roundStart { st with isQuotaError := false, hasNoSamplesError := false,
                           selectedSource := some album,
                           currentAlbumTracks := fetched.filter (fun t => truthyStr t.previewUrl),
                           playedTrackIds := [],
                           replaysRemaining := 2 }
        album (fetched.filter (fun t => truthyStr t.previewUrl)) [] st.selectedSource p := by
  have hne : (fetched.filter (fun t => truthyStr t.previewUrl)).isEmpty = false := by
    cases hr : fetched.filter (fun t => truthyStr t.previewUrl) with
    | nil => exact absurd hr htr
    | cons a l => rfl
  unfold startChallenge
  rw [if_pos rfl]
  dsimp only []
  rw [hne]
  rfl

/-! ## Catalog-client lemmas -/

theorem attemptTracks_truthy (o : LookupOutcome) :
    ∀ t ∈ attemptTracks o, truthyStr t.previewUrl = true := by
  intro t ht
  cases o with
  | ok items =>
    simp only [attemptTracks] at ht
    exact (List.mem_filter.mp ht).2
  | fetchFail => simp [attemptTracks] at ht
  | httpNotOk => simp [attemptTracks] at ht
  | noResults => simp [attemptTracks] at ht

theorem getAlbumTracks_eq (o0 o1 o2 : LookupOutcome) :
    getAlbumTracks o0 o1 o2 =
      (if attemptTracks o0 = [] then
        (if attemptTracks o1 = [] then attemptTracks o2 else attemptTracks o1)
       else attemptTracks o0) := by
  unfold getAlbumTracks
  dsimp only []
  by_cases h0 : attemptTracks o0 = []
  · by_cases h1 : attemptTracks o1 = []
    · simp [h0, h1, List.length_eq_zero]
    · simp [h0, h1, List.length_eq_zero]
  · simp [h0, List.length_eq_zero]

/-! ## Sort-comparator lemmas for `searchAlbums` -/

theorem yearLt_asym (a b : Album) (h : yearLt a b = true) : yearLt b a = false := by
  unfold yearLt at h ⊢
  generalize hA : parseIntJS a.year = oa at h ⊢
  generalize hB : parseIntJS b.year = ob at h ⊢
  cases oa <;> cases ob <;> simp_all <;> omega

theorem yearLt_trans_some (a b c : Album)
    (hb2 : (parseIntJS b.year).isSome = true) (hc2 : (parseIntJS c.year).isSome = true)
    (h1 : yearLt b a = false) (h2 : yearLt c b = false) : yearLt c a = false := by
  unfold yearLt at h1 h2 ⊢
  generalize hA : parseIntJS a.year = oa at h1 ⊢
  generalize hB : parseIntJS b.year = ob at h1 h2 hb2
  generalize hC : parseIntJS c.year = oc at h2 hc2 ⊢
  cases oa <;> cases ob <;> cases oc <;> simp_all <;> omega

theorem dedupLastWins_map_id (l : List Album) :
    (dedupLastWins l).map (fun a => a.id) = firstDistinct (l.map (fun a => a.id)) := by
  unfold dedupLastWins
  rw [List.map_map]
  have hpt : ∀ i ∈ firstDistinct (l.map (fun a => a.id)),
      ((fun a => a.id) ∘ lastWithId l) i = i := by
    intro i hi
    have : i ∈ l.map (fun a => a.id) := (mem_firstDistinct _ i).mp hi
    obtain ⟨a, ha, rfl⟩ := List.mem_map.mp this
    exact (lastWithId_spec l a.id ⟨a, ha, rfl⟩).1
  calc (firstDistinct (l.map (fun a => a.id))).map ((fun a => a.id) ∘ lastWithId l)
      = (firstDistinct (l.map (fun a => a.id))).map id := List.map_congr_left hpt
    _ = firstDistinct (l.map (fun a => a.id)) := List.map_id _

theorem dedupLastWins_mem (l : List Album) :
    ∀ a ∈ dedupLastWins l, a = lastWithId l a.id ∧ a ∈ l ∧ a.id ∈ l.map (fun b => b.id) := by
  intro a ha
  unfold dedupLastWins at ha
  obtain ⟨i, hi, rfl⟩ := List.mem_map.mp ha
  have hil : i ∈ l.map (fun b => b.id) := (mem_firstDistinct _ i).mp hi
  obtain ⟨b, hb, rfl⟩ := List.mem_map.mp hil
  obtain ⟨hid, hmem⟩ := lastWithId_spec l b.id ⟨b, hb, rfl⟩
  exact ⟨by rw [hid], hmem, by rw [hid]; exact List.mem_map_of_mem (fun b => b.id) hb⟩

/-! ## Concrete fixtures for witnesses and counterexamples -/

def cTrackA : Track := { id := "1", name := "Alpha", previewUrl := some "https://p/1" }

def cTrackB : Track := { id := "2", name := "Beta", previewUrl := some "https://p/2" }

def cAlbum : Album := { id := "alb1", name := "TestAlbum", artist := "Artist", year := "2001", imageUrl := "" }

def cBaseState : SessionState :=
  { gameState := .SEARCHING, difficulty := .MEDIUM, score := 0, highScore := 0,
    storedHighScore := 0, completedAlbums := [], storedCompleted := [],
    selectedSource := none, challenge := none, lastCorrectTrack := none,
    currentAlbumTracks := [], playedTrackIds := [], replaysRemaining := 2,
    isFiring := false, isVictory := false, isAudioPlaying := false,
    isQuotaError := false, hasNoSamplesError := false, pendingGameOverDelay := none }

def idParams (o : AIOutcome) : RoundParams :=
  { outcome := o, rs := fun _ => 0, shufA := id, shufF1 := id, shufF2 := id,
    shufHeal := id, pick := 0 }

theorem idParams_good (o : AIOutcome) (h : chalOkB o = true) : goodParams (idParams o) :=
  ⟨fun l => List.Perm.refl l, fun l => List.Perm.refl l, fun l => List.Perm.refl l,
    fun l => List.Perm.refl l, h⟩

def cRawTrackA : RawTrack :=
  { wrapperType := some "track", kind := some "song", trackId := 11,
    trackName := "Alpha", previewUrl := some "http://p/11" }

def cRawTrackNoPrev : RawTrack :=
  { wrapperType := some "track", kind := some "song", trackId := 12,
    trackName := "Silent", previewUrl := none }

def cItemNA : RawAlbumItem :=
  { collectionId := some 1, collectionName := some "X", artistName := some "a",
    releaseDate := none, artworkUrl100 := none }

def cItem2020 : RawAlbumItem :=
  { collectionId := some 2, collectionName := some "Y", artistName := some "a",
    releaseDate := some "2020-01-01", artworkUrl100 := none }

def cItem1999 : RawAlbumItem :=
  { collectionId := some 3, collectionName := some "Z", artistName := some "a",
    releaseDate := some "1999-05-01", artworkUrl100 := none }

/-! ## Claim C6 -/

/-- C6: `getAlbumTracks` attempts the default storefront first, retries the
first and second alternate storefronts only while the previous attempt
produced zero preview-carrying tracks (when the first attempt is non-empty
the result does not even depend on the later outcomes), returns the first
non-empty preview-filtered attempt (or the last attempt's — possibly empty —
result when the first two are empty), and every returned track has a
non-empty preview URL. -/
theorem c6_storefront_fallback (o0 o1 o2 : LookupOutcome) :
    (∀ t ∈ getAlbumTracks o0 o1 o2, truthyStr t.previewUrl = true) ∧
    (attemptTracks o0 ≠ [] → ∀ o1' o2', getAlbumTracks o0 o1' o2' = attemptTracks o0) ∧
    (attemptTracks o0 = [] → attemptTracks o1 ≠ [] →
      getAlbumTracks o0 o1 o2 = attemptTracks o1) ∧
    (attemptTracks o0 = [] → attemptTracks o1 = [] →
      getAlbumTracks o0 o1 o2 = attemptTracks o2) := by
  refine ⟨?_, ?_, ?_, ?_⟩
  · intro t ht
    rw [getAlbumTracks_eq] at ht
    by_cases h0 : attemptTracks o0 = []
    · by_cases h1 : attemptTracks o1 = []
      · rw [if_pos h0, if_pos h1] at ht
        exact attemptTracks_truthy o2 t ht
      · rw [if_pos h0, if_neg h1] at ht
        exact attemptTracks_truthy o1 t ht
    · rw [if_neg h0] at ht
      exact attemptTracks_truthy o0 t ht
  · intro h0 o1' o2'
    rw [getAlbumTracks_eq, if_neg h0]
  · intro h0 h1
    rw [getAlbumTracks_eq, if_pos h0, if_neg h1]
  · intro h0 h1
    rw [getAlbumTracks_eq, if_pos h0, if_pos h1]

/-- C6 witness: a concrete run in which the default attempt already finds a
playable track, so the alternate-storefront outcomes are irrelevant. -/
theorem c6_storefront_fallback_witness :
    attemptTracks (.ok [cRawTrackA, cRawTrackNoPrev]) ≠ [] ∧
      getAlbumTracks (.ok [cRawTrackA, cRawTrackNoPrev]) .fetchFail .httpNotOk =
        attemptTracks (.ok [cRawTrackA, cRawTrackNoPrev]) ∧
      getAlbumTracks (.ok [cRawTrackA, cRawTrackNoPrev]) .fetchFail .httpNotOk =
        [{ id := "11", name := "Alpha", previewUrl := some "https://p/11" }] :=
  ⟨by decide,
   (c6_storefront_fallback (.ok [cRawTrackA, cRawTrackNoPrev]) .fetchFail .httpNotOk).2.1
     (by decide) .fetchFail .httpNotOk,
   by decide⟩

/-! ## Claim C7 -/

/-- Modelled from the spec claim's own wording, for refutation only: the
claimed order relation "year descending where a failed numeric parse
compares as minimal". -/
def specYearGEB (a b : Album) : Bool :=
  match parseIntJS a.year, parseIntJS b.year with
  | some pa, some pb => pb ≤ pa
  | some _, none => true
  | none, none => true
  | none, some _ => false

/-- C7 counterexample: an album with unparseable year `"N/A"` listed before
a `"2020"` album stays first in `searchAlbums`' output (the `NaN` comparator
value makes the pair compare equal and the stable sort keeps input order),
so the output violates the claimed "failed parse compares as minimal"
descending order, which would demand the `"N/A"` album last. -/
theorem c7_counterexample :
    searchAlbums (.ok [cItemNA, cItem2020]) =
      [toAlbum cItemNA, toAlbum cItem2020] ∧
    ¬ List.Pairwise (fun a b => specYearGEB a b = true)
        (searchAlbums (.ok [cItemNA, cItem2020])) := by
  constructor
  · decide
  · decide

/-- C7 (amended): `searchAlbums` yields `[]` on every failure outcome (never
propagating an exception); on success the result is a permutation of the
id-deduplicated album list in which the last-seen occurrence of each id wins
and ids are pairwise distinct, and — whenever every year parses numerically —
it is sorted by year descending. A year whose numeric parse fails compares
as equal to everything (not as minimal), leaving such entries in stable
positions. -/
theorem c7_search_soft_dedup_sort :
    (searchAlbums .fetchFail = [] ∧ searchAlbums .httpNotOk = [] ∧
      searchAlbums .noResults = []) ∧
    (∀ items,
      List.Perm (searchAlbums (.ok items)) (dedupLastWins (mappedAlbums items)) ∧
      ((searchAlbums (.ok items)).map (fun a => a.id)).Nodup ∧
      (∀ a ∈ searchAlbums (.ok items),
        a = lastWithId (mappedAlbums items) a.id ∧
        a.id ∈ (mappedAlbums items).map (fun b => b.id)) ∧
      ((∀ a ∈ mappedAlbums items, (parseIntJS a.year).isSome = true) →
        List.Pairwise
          (fun a b => (parseIntJS b.year).getD 0 ≤ (parseIntJS a.year).getD 0)
          (searchAlbums (.ok items)))) := by
  refine ⟨⟨rfl, rfl, rfl⟩, fun items => ?_⟩
  have hperm : List.Perm (searchAlbums (.ok items)) (dedupLastWins (mappedAlbums items)) :=
    perm_sortJS yearLt (dedupLastWins (mappedAlbums items))
  refine ⟨hperm, ?_, ?_, ?_⟩
  · have hmap : List.Perm ((searchAlbums (.ok items)).map (fun a => a.id))
        ((dedupLastWins (mappedAlbums items)).map (fun a => a.id)) := hperm.map _
    rw [hmap.nodup_iff, dedupLastWins_map_id]
    exact nodup_firstDistinct _
  · intro a ha
    have := dedupLastWins_mem (mappedAlbums items) a (hperm.subset ha)
    exact ⟨this.1, this.2.2⟩
  · intro hys
    have hP : ∀ a ∈ dedupLastWins (mappedAlbums items), (parseIntJS a.year).isSome = true := by
      intro a ha
      exact hys a (dedupLastWins_mem (mappedAlbums items) a ha).2.1
    have hpw := pairwise_sortJS yearLt (fun a => (parseIntJS a.year).isSome = true)
      yearLt_asym
      (fun a b c _ hb hc h1 h2 => yearLt_trans_some a b c hb hc h1 h2)
      (dedupLastWins (mappedAlbums items)) hP
    refine List.Pairwise.imp_of_mem ?_ hpw
    intro a b ha hb hlt
    have hpa := hP a (hperm.subset ha)
    have hpb := hP b (hperm.subset hb)
    obtain ⟨pa, hpa'⟩ := Option.isSome_iff_exists.mp hpa
    obtain ⟨pb, hpb'⟩ := Option.isSome_iff_exists.mp hpb
    rw [hpa', hpb']
    unfold yearLt at hlt
    rw [hpb', hpa'] at hlt
    simp only [decide_eq_false_iff_not] at hlt
    simpa using Int.not_lt.mp hlt

/-- C7 witness: concrete success run with all-numeric years — the result is
sorted descending, deduplicated, and the failure outcomes give `[]`. -/
theorem c7_search_witness :
    List.Pairwise
      (fun a b => (parseIntJS b.year).getD 0 ≤ (parseIntJS a.year).getD 0)
      (searchAlbums (.ok [cItem1999, cItem2020])) ∧
    searchAlbums .fetchFail = [] :=
  ⟨((c7_search_soft_dedup_sort).2 [cItem1999, cItem2020]).2.2.2 (by decide),
   (c7_search_soft_dedup_sort).1.1⟩

/-! ## Claim C3 -/

def cErrStatus429 : JsError := { message := "Resource exhausted", status := some 429 }

/-- C3 counterexample: an AI failure carrying the numeric status 429 but
whose message contains neither `"quota"` nor `"429"` is NOT re-thrown by
`getAlbumChallenge` — contrary to the claim, it returns the local fallback
challenge. The generator inspects only `error.message`. -/
theorem c3_counterexample :
    getAlbumChallenge cAlbum [cTrackA, cTrackB] (.failure cErrStatus429)
        (fun _ => 0) id id id =
      .ok (fallbackChallenge cAlbum [cTrackA, cTrackB] id id) ∧
    getAlbumChallenge cAlbum [cTrackA, cTrackB] (.failure cErrStatus429)
        (fun _ => 0) id id id ≠ .error cErrStatus429 := by
  have h : getAlbumChallenge cAlbum [cTrackA, cTrackB] (.failure cErrStatus429)
      (fun _ => 0) id id id = .ok (fallbackChallenge cAlbum [cTrackA, cTrackB] id id) := by
    rfl
  refine ⟨h, ?_⟩
  rw [h]
  intro hc
  exact Except.noConfusion hc

/-- C3 (amended): `getAlbumChallenge` re-throws the error unchanged exactly
when the AI call fails with a message containing `"quota"` or containing
`"429"` (a numeric 429 status alone does not trigger the re-throw); every
other failure yields the local fallback challenge — built from a shuffle of
the tracks with the first as correct and the next three as wrong — which,
for a non-empty track list, never fails and has `min 4 n` well-formed
options containing the correct track. -/
theorem c3_quota_rethrow_amended (album : Album) (tracks : List Track)
    (outcome : AIOutcome) (rs : Nat → Nat)
    (shufA shufF1 shufF2 : List Track → List Track)
    (htr : tracks ≠ []) (h1 : permFun shufF1) (h2 : permFun shufF2) :
    (∀ e, getAlbumChallenge album tracks outcome rs shufA shufF1 shufF2 = .error e ↔
      outcome = .failure e ∧
        (strContains e.message "quota" = true ∨ strContains e.message "429" = true)) ∧
    (∀ e, outcome = .failure e →
      strContains e.message "quota" = false → strContains e.message "429" = false →
      getAlbumChallenge album tracks outcome rs shufA shufF1 shufF2 =
          .ok (fallbackChallenge album tracks shufF1 shufF2) ∧
        chalWF tracks (fallbackChallenge album tracks shufF1 shufF2) ∧
        (fallbackChallenge album tracks shufF1 shufF2).options.length =
          min 4 tracks.length) := by
  constructor
  · intro e
    exact getAlbumChallenge_error_iff album tracks outcome rs shufA shufF1 shufF2 e
  · rintro e rfl hq h429
    obtain ⟨hwf, hlen⟩ := fallbackChallenge_spec album tracks shufF1 shufF2 htr h1 h2
    refine ⟨?_, hwf, hlen⟩
    simp [getAlbumChallenge, hq, h429]

/-- C3 witness: a non-quota failure on a concrete two-track list produces
the fallback challenge with exactly `min 4 2 = 2` options. -/
theorem c3_quota_rethrow_witness :
    getAlbumChallenge cAlbum [cTrackA, cTrackB]
        (.failure { message := "boom", status := none }) (fun _ => 0) id id id =
      .ok (fallbackChallenge cAlbum [cTrackA, cTrackB] id id) ∧
    (fallbackChallenge cAlbum [cTrackA, cTrackB] id id).options.length = min 4 2 := by
  have h := (c3_quota_rethrow_amended cAlbum [cTrackA, cTrackB]
    (.failure { message := "boom", status := none }) (fun _ => 0) id id id
    (by decide) (fun l => List.Perm.refl l) (fun l => List.Perm.refl l)).2
    { message := "boom", status := none } rfl (by decide) (by decide)
  exact ⟨h.1, by simpa using h.2.2⟩

/-! ## Further round-start equations -/

theorem remainingOf_nil (tracks : List Track) : remainingOf tracks [] = tracks := by
  unfold remainingOf
  rw [List.filter_eq_self]
  intro a _
  simp

theorem roundStart_ok_eq (st : SessionState) (album : Album) (tracks : List Track)
    (played : List String) (snapSel : Option Album) (p : RoundParams) (chal : GameChallenge)
    (hrem : remainingOf tracks played ≠ [])
    (hres : getAlbumChallenge album tracks p.outcome p.rs p.shufA p.shufF1 p.shufF2 = .ok chal) :
    roundStart st album tracks played snapSel p =
      { st with
        challenge := some (healChallenge chal (remainingOf tracks played) played p),
        lastCorrectTrack :=
          some (healChallenge chal (remainingOf tracks played) played p).correctTrack.name,
        gameState := GameState.PLAYING,
        isAudioPlaying := true } := by
  have hne : (remainingOf tracks played).isEmpty = false := by
    cases hr : remainingOf tracks played with
    | nil => exact absurd hr hrem
    | cons a l => rfl
  unfold roundStart
  dsimp only []
  rw [hne]
  simp only [Bool.false_eq_true, if_false, hres]

theorem roundStart_error_eq (st : SessionState) (album : Album) (tracks : List Track)
    (played : List String) (snapSel : Option Album) (p : RoundParams) (e : JsError)
    (hrem : remainingOf tracks played ≠ [])
    (hres : getAlbumChallenge album tracks p.outcome p.rs p.shufA p.shufF1 p.shufF2 = .error e) :
    roundStart st album tracks played snapSel p =
      (if (strContains e.message "quota" || decide (e.status = some (429 : Int))) = true
       then { st with isQuotaError := true } else st) := by
  have hne : (remainingOf tracks played).isEmpty = false := by
    cases hr : remainingOf tracks played with
    | nil => exact absurd hr hrem
    | cons a l => rfl
  unfold roundStart
  dsimp only []
  rw [hne]
  simp only [Bool.false_eq_true, if_false, hres]

theorem markAlbumCompleteS_fields (st : SessionState) (i : String) :
    (markAlbumCompleteS st i).challenge = st.challenge ∧
    (markAlbumCompleteS st i).lastCorrectTrack = st.lastCorrectTrack ∧
    (markAlbumCompleteS st i).score = st.score ∧
    (markAlbumCompleteS st i).highScore = st.highScore ∧
    (markAlbumCompleteS st i).storedHighScore = st.storedHighScore ∧
    (markAlbumCompleteS st i).gameState = st.gameState ∧
    (markAlbumCompleteS st i).playedTrackIds = st.playedTrackIds := by
  unfold markAlbumCompleteS
  split <;> exact ⟨rfl, rfl, rfl, rfl, rfl, rfl, rfl⟩

/-- Round-start preserves the coupling "the recorded last-correct-track name
is the installed challenge's correct track name". -/
theorem roundStart_matchInv (st : SessionState) (album : Album) (tracks : List Track)
    (played : List String) (snapSel : Option Album) (p : RoundParams)
    (hinv : ∀ c, st.challenge = some c → st.lastCorrectTrack = some c.correctTrack.name) :
    ∀ c, (roundStart st album tracks played snapSel p).challenge = some c →
      (roundStart st album tracks played snapSel p).lastCorrectTrack =
        some c.correctTrack.name := by
  intro c hc
  by_cases hrem : remainingOf tracks played = []
  · rw [roundStart_exhausted st album tracks played snapSel p hrem] at hc ⊢
    cases snapSel with
    | none => exact hinv c hc
    | some src =>
      rw [(markAlbumCompleteS_fields _ src.id).1] at hc
      rw [(markAlbumCompleteS_fields _ src.id).2.1]
      exact hinv c hc
  · cases hres : getAlbumChallenge album tracks p.outcome p.rs p.shufA p.shufF1 p.shufF2 with
    | ok chal =>
      rw [roundStart_ok_eq st album tracks played snapSel p chal hrem hres] at hc ⊢
      simp only [] at hc
      cases hc
      rfl
    | error e =>
      rw [roundStart_error_eq st album tracks played snapSel p e hrem hres] at hc ⊢
      by_cases hq : (strContains e.message "quota" || decide (e.status = some (429 : Int))) = true
      · rw [if_pos hq] at hc ⊢
        exact hinv c hc
      · rw [if_neg hq] at hc ⊢
        exact hinv c hc

theorem startChallenge_matchInv (st : SessionState) (album : Album) (isNew : Bool)
    (f : FetchOutcome) (p : RoundParams)
    (hinv : ∀ c, st.challenge = some c → st.lastCorrectTrack = some c.correctTrack.name) :
    ∀ c, (startChallenge st album isNew f p).challenge = some c →
      (startChallenge st album isNew f p).lastCorrectTrack =
        some c.correctTrack.name := by
  intro c hc
  cases isNew with
  | false =>
    rw [startChallenge_false_eq] at hc ⊢
    exact roundStart_matchInv { st with isQuotaError := false, hasNoSamplesError := false }
      album st.currentAlbumTracks st.playedTrackIds st.selectedSource p
      (fun c' hc' => hinv c' hc') c hc
  | true =>
    cases f with
    | err => exact hinv c hc
    | ok fetched =>
      by_cases htr : fetched.filter (fun t => truthyStr t.previewUrl) = []
      · unfold startChallenge at hc ⊢
        rw [if_pos rfl] at hc ⊢
        dsimp only [] at hc ⊢
        have hemp : (fetched.filter (fun t => truthyStr t.previewUrl)).isEmpty = true := by
          rw [htr]; rfl
        rw [hemp] at hc ⊢
        exact hinv c hc
      · rw [startChallenge_true_ok_eq st album fetched p htr] at hc ⊢
        exact roundStart_matchInv
          { st with isQuotaError := false, hasNoSamplesError := false,
                    selectedSource := some album,
                    currentAlbumTracks := fetched.filter (fun t => truthyStr t.previewUrl),
                    playedTrackIds := [], replaysRemaining := 2 }
          album (fetched.filter (fun t => truthyStr t.previewUrl)) [] st.selectedSource p
          (fun c' hc' => hinv c' hc') c hc

/-! ## Answer-judging equations -/

theorem handleAnswer_correct_eq (st : SessionState) (c : GameChallenge) (tr : Track)
    (hch : st.challenge = some c) (hf : st.isFiring = false) (hv : st.isVictory = false)
    (hid : tr.id = c.correctTrack.id) :
    handleAnswer st tr =
      { st with isVictory := true,
                score := st.score + points st.difficulty,
                isAudioPlaying := true,
                playedTrackIds := addId st.playedTrackIds tr.id } := by
  unfold handleAnswer
  rw [hch]
  simp [hf, hv, hid]

theorem handleAnswer_wrong_eq (st : SessionState) (c : GameChallenge) (tr : Track)
    (hch : st.challenge = some c) (hf : st.isFiring = false) (hv : st.isVictory = false)
    (hid : ¬ tr.id = c.correctTrack.id) :
    handleAnswer st tr =
      { st with isFiring := true,
                isAudioPlaying := false,
                pendingGameOverDelay := some gameOverDelayMs } := by
  unfold handleAnswer
  rw [hch]
  simp [hf, hv, hid]

/-! ## Claim C1 -/

def cRespDup : AIResponse :=
  { correctTrackName := "Alpha", wrongTrackNames := ["Alpha", "Alpha"], vibeDescription := "vibe" }

/-- C1 counterexample: with the AI naming the correct track "Alpha" and
returning "Alpha" twice as wrong names, the presented round's options are
`[Alpha, Alpha, Alpha]` — three entries, all with id "1" — so the options
list has neither exactly 4 entries nor pairwise-distinct ids, while the
round is shown to the player (state PLAYING, no self-healing triggered). -/
theorem c1_counterexample :
    (startChallenge cBaseState cAlbum true (.ok [cTrackA, cTrackB])
        (idParams (.success cRespDup))).challenge =
      some { correctTrack := cTrackA, options := [cTrackA, cTrackA, cTrackA],
             snippetDescription := "vibe" } ∧
    (startChallenge cBaseState cAlbum true (.ok [cTrackA, cTrackB])
        (idParams (.success cRespDup))).gameState = GameState.PLAYING := by
  exact ⟨rfl, rfl⟩

/-- C1 (amended): for every round presented to the player — by the AI path
or the local fallback path, after the self-healing splice — the options list
has between 1 and 4 entries, contains `correctTrack`, and every entry has a
non-empty previewUrl (given a track list with pairwise-distinct ids, as
catalog ids are). Exactly-4 and pairwise-distinct option ids are NOT
guaranteed (see the counterexample). -/
theorem c1_options_amended (st : SessionState) (album : Album) (p : RoundParams)
    (hgp : goodParams p) :
    (∀ fetched,
      ((fetched.filter (fun t => truthyStr t.previewUrl)).map (fun t => t.id)).Nodup →
      fetched.filter (fun t => truthyStr t.previewUrl) ≠ [] →
      ∃ c, (startChallenge st album true (.ok fetched) p).challenge = some c ∧
        1 ≤ c.options.length ∧ c.options.length ≤ 4 ∧ c.correctTrack ∈ c.options ∧
        (∀ o ∈ c.options, truthyStr o.previewUrl = true)) ∧
    ((st.currentAlbumTracks.map (fun t => t.id)).Nodup →
      (∀ t ∈ st.currentAlbumTracks, truthyStr t.previewUrl = true) →
      remainingOf st.currentAlbumTracks st.playedTrackIds ≠ [] →
      ∀ f, ∃ c, (startChallenge st album false f p).challenge = some c ∧
        1 ≤ c.options.length ∧ c.options.length ≤ 4 ∧ c.correctTrack ∈ c.options ∧
        (∀ o ∈ c.options, truthyStr o.previewUrl = true)) := by
  constructor
  · intro fetched hnodup htrne
    rw [startChallenge_true_ok_eq st album fetched p htrne]
    have htruthy : ∀ t ∈ fetched.filter (fun t => truthyStr t.previewUrl),
        truthyStr t.previewUrl = true := fun t ht => (List.mem_filter.mp ht).2
    have hrem : remainingOf (fetched.filter (fun t => truthyStr t.previewUrl)) [] ≠ [] := by
      rw [remainingOf_nil]
      exact htrne
    obtain ⟨healed, heq, hmemT, hnp, htp, hmo, hos, hl1, hl4⟩ :=
      roundStart_success _ album (fetched.filter (fun t => truthyStr t.previewUrl)) []
        st.selectedSource p hrem hnodup htruthy hgp
    rw [heq]
    exact ⟨healed, rfl, hl1, hl4, hmo, fun o ho => htruthy o (hos o ho)⟩
  · intro hnodup htruthy hrem f
    rw [startChallenge_false_eq]
    obtain ⟨healed, heq, hmemT, hnp, htp, hmo, hos, hl1, hl4⟩ :=
      roundStart_success _ album st.currentAlbumTracks st.playedTrackIds
        st.selectedSource p hrem hnodup htruthy hgp
    rw [heq]
    exact ⟨healed, rfl, hl1, hl4, hmo, fun o ho => htruthy o (hos o ho)⟩

def cRespGood : AIResponse :=
  { correctTrackName := "Alpha", wrongTrackNames := ["Beta"], vibeDescription := "v" }

def cChallengeW : GameChallenge :=
  ((startChallenge cBaseState cAlbum true (.ok [cTrackA, cTrackB])
      (idParams (.success cRespGood))).challenge).getD
    { correctTrack := dummyTrack, options := [], snippetDescription := "" }

/-- C1 witness: the amended statement instantiated on a concrete two-track
album and a concrete AI response. -/
theorem c1_options_amended_witness :
    1 ≤ cChallengeW.options.length ∧ cChallengeW.options.length ≤ 4 ∧
      cChallengeW.correctTrack ∈ cChallengeW.options := by
  obtain ⟨c, hc, hl1, hl4, hmem, -⟩ :=
    (c1_options_amended cBaseState cAlbum (idParams (.success cRespGood))
        (idParams_good _ rfl)).1 [cTrackA, cTrackB] (by decide) (by decide)
  have hW : cChallengeW = c := by
    unfold cChallengeW
    rw [hc]
    rfl
  rw [hW]
  exact ⟨hl1, hl4, hmem⟩

/-! ## Claim C2 -/

/-- C2: for every round started within an album whose remaining-track set is
non-empty, the correct track finally installed by round-start (after the
self-healing check) has a non-empty previewUrl and its id is not in
`playedTrackIds` at the moment the round starts — on a fresh album load the
played set is empty, and within an album round-start leaves the played set
untouched and picks a correct track outside it. -/
theorem c2_correct_playable_novel (st : SessionState) (album : Album) (p : RoundParams)
    (hgp : goodParams p) :
    (∀ fetched,
      ((fetched.filter (fun t => truthyStr t.previewUrl)).map (fun t => t.id)).Nodup →
      fetched.filter (fun t => truthyStr t.previewUrl) ≠ [] →
      ∃ c, (startChallenge st album true (.ok fetched) p).challenge = some c ∧
        truthyStr c.correctTrack.previewUrl = true ∧
        (startChallenge st album true (.ok fetched) p).playedTrackIds = [] ∧
        c.correctTrack.id ∉ (startChallenge st album true (.ok fetched) p).playedTrackIds) ∧
    ((st.currentAlbumTracks.map (fun t => t.id)).Nodup →
      (∀ t ∈ st.currentAlbumTracks, truthyStr t.previewUrl = true) →
      remainingOf st.currentAlbumTracks st.playedTrackIds ≠ [] →
      ∀ f, ∃ c, (startChallenge st album false f p).challenge = some c ∧
        truthyStr c.correctTrack.previewUrl = true ∧
        (startChallenge st album false f p).playedTrackIds = st.playedTrackIds ∧
        c.correctTrack.id ∉ st.playedTrackIds) := by
  constructor
  · intro fetched hnodup htrne
    rw [startChallenge_true_ok_eq st album fetched p htrne]
    have htruthy : ∀ t ∈ fetched.filter (fun t => truthyStr t.previewUrl),
        truthyStr t.previewUrl = true := fun t ht => (List.mem_filter.mp ht).2
    have hrem : remainingOf (fetched.filter (fun t => truthyStr t.previewUrl)) [] ≠ [] := by
      rw [remainingOf_nil]
      exact htrne
    obtain ⟨healed, heq, hmemT, hnp, htp, hmo, hos, hl1, hl4⟩ :=
      roundStart_success _ album (fetched.filter (fun t => truthyStr t.previewUrl)) []
        st.selectedSource p hrem hnodup htruthy hgp
    rw [heq]
    exact ⟨healed, rfl, htp, rfl, hnp⟩
  · intro hnodup htruthy hrem f
    rw [startChallenge_false_eq]
    obtain ⟨healed, heq, hmemT, hnp, htp, hmo, hos, hl1, hl4⟩ :=
      roundStart_success _ album st.currentAlbumTracks st.playedTrackIds
        st.selectedSource p hrem hnodup htruthy hgp
    rw [heq]
    exact ⟨healed, rfl, htp, rfl, hnp⟩

def cRespStale : AIResponse :=
  { correctTrackName := "Alpha", wrongTrackNames := ["Beta"], vibeDescription := "v" }

def cStaleState : SessionState :=
  { cBaseState with gameState := .PLAYING, selectedSource := some cAlbum,
                    currentAlbumTracks := [cTrackA, cTrackB], playedTrackIds := ["1"] }

/-- C2 witness: round-start within an album where track "1" was already
played — the self-healing check must swap the AI's stale pick "Alpha" for
the remaining track "Beta". -/
theorem c2_correct_playable_novel_witness :
    ((startChallenge cStaleState cAlbum false .err
        (idParams (.success cRespStale))).challenge.getD
      { correctTrack := dummyTrack, options := [], snippetDescription := "" }).correctTrack.id ∉
        cStaleState.playedTrackIds ∧
    (startChallenge cStaleState cAlbum false .err
        (idParams (.success cRespStale))).playedTrackIds = cStaleState.playedTrackIds := by
  obtain ⟨c, hc, htp, hpl, hnp⟩ :=
    (c2_correct_playable_novel cStaleState cAlbum (idParams (.success cRespStale))
        (idParams_good _ rfl)).2 (by decide) (by decide) (by decide) .err
  constructor
  · rw [hc]
    exact hnp
  · exact hpl

/-! ## Claim C8 -/

def cErrQuota : JsError := { message := "quota exceeded", status := none }

def cPrevState : SessionState :=
  { cBaseState with playedTrackIds := ["9"], score := 100, gameState := .ALBUM_SELECTION }

/-- C8 counterexample: a quota-class generator failure during a NEW-ALBUM
round-start does set the quota flag and leaves score and game state alone,
but `playedTrackIds` IS mutated by that round-start: the album load cleared
it from `["9"]` (the previous album's played set) to `[]` before the
generator was consulted — so "leaves playedTrackIds unmutated" fails. -/
theorem c8_counterexample :
    (startChallenge cPrevState cAlbum true (.ok [cTrackA])
        (idParams (.failure cErrQuota))).isQuotaError = true ∧
    (startChallenge cPrevState cAlbum true (.ok [cTrackA])
        (idParams (.failure cErrQuota))).score = cPrevState.score ∧
    (startChallenge cPrevState cAlbum true (.ok [cTrackA])
        (idParams (.failure cErrQuota))).gameState = cPrevState.gameState ∧
    cPrevState.playedTrackIds = ["9"] ∧
    (startChallenge cPrevState cAlbum true (.ok [cTrackA])
        (idParams (.failure cErrQuota))).playedTrackIds = [] := by
  exact ⟨rfl, rfl, rfl, rfl, rfl⟩

/-- C8 (amended): when the Challenge Generator throws a quota-class error
(message containing "quota", or numeric status 429 — provided the generator
re-threw it at all) during a round-start WITHIN the current album, the
controller latches the quota-error flag and leaves game state, score,
playedTrackIds, the challenge and the completion ledger exactly as they
were. On a new-album round-start the same holds for score and game state,
but playedTrackIds has already been reset to empty by the album load that
precedes the generator call. -/
theorem c8_quota_flag_amended (st : SessionState) (album : Album) (f : FetchOutcome)
    (p : RoundParams) (e : JsError)
    (hout : p.outcome = .failure e)
    (hthrown : strContains e.message "quota" = true ∨ strContains e.message "429" = true)
    (hclass : strContains e.message "quota" = true ∨ e.status = some 429)
    (hrem : remainingOf st.currentAlbumTracks st.playedTrackIds ≠ []) :
    (startChallenge st album false f p).isQuotaError = true ∧
    (startChallenge st album false f p).gameState = st.gameState ∧
    (startChallenge st album false f p).score = st.score ∧
    (startChallenge st album false f p).playedTrackIds = st.playedTrackIds ∧
    (startChallenge st album false f p).challenge = st.challenge ∧
    (startChallenge st album false f p).completedAlbums = st.completedAlbums := by
  have herr : getAlbumChallenge album st.currentAlbumTracks p.outcome p.rs p.shufA
      p.shufF1 p.shufF2 = .error e := by
    rw [hout]
    unfold getAlbumChallenge
    have hcond : (strContains e.message "quota" || strContains e.message "429") = true := by
      rcases hthrown with h | h
      · simp [h]
      · simp [h]
    dsimp only []
    rw [if_pos hcond]
  rw [startChallenge_false_eq]
  rw [roundStart_error_eq _ album st.currentAlbumTracks st.playedTrackIds
    st.selectedSource p e hrem herr]
  have hq : (strContains e.message "quota" || decide (e.status = some (429 : Int))) = true := by
    rcases hclass with h | h
    · simp [h]
    · simp [h]
  rw [if_pos hq]
  exact ⟨rfl, rfl, rfl, rfl, rfl, rfl⟩

def cMidState : SessionState :=
  { cBaseState with currentAlbumTracks := [cTrackA], selectedSource := some cAlbum,
                    gameState := .PLAYING, score := 50 }

/-- C8 witness: the amended statement instantiated on a concrete mid-album
quota failure. -/
theorem c8_quota_flag_witness :
    (startChallenge cMidState cAlbum false .err
        (idParams (.failure cErrQuota))).isQuotaError = true ∧
    (startChallenge cMidState cAlbum false .err
        (idParams (.failure cErrQuota))).score = cMidState.score ∧
    (startChallenge cMidState cAlbum false .err
        (idParams (.failure cErrQuota))).playedTrackIds = cMidState.playedTrackIds := by
  have h := c8_quota_flag_amended cMidState cAlbum .err (idParams (.failure cErrQuota))
    cErrQuota rfl (Or.inl (by decide)) (Or.inl (by decide)) (by decide)
  exact ⟨h.1, h.2.2.1, h.2.2.2.1⟩

/-! ## Claim C9 -/

/-- C9: round-start couples the recorded last-correct-track name to the
installed challenge's correct track; choosing an option whose id differs
from the correct track's stops the audio, latches the firing flag with the
fixed 1500 ms game-over timeout pending, leaves the score and the recorded
name alone, and the timeout callback then moves any state unconditionally
to GAME_OVER — so at game over the displayed name equals the round's
`correctTrack.name`. -/
theorem c9_wrong_answer_game_over (st : SessionState) :
    (∀ album isNew f p,
      (∀ c, st.challenge = some c → st.lastCorrectTrack = some c.correctTrack.name) →
      ∀ c, (startChallenge st album isNew f p).challenge = some c →
        (startChallenge st album isNew f p).lastCorrectTrack = some c.correctTrack.name) ∧
    (∀ c tr, st.challenge = some c → st.isFiring = false → st.isVictory = false →
      st.lastCorrectTrack = some c.correctTrack.name →
      tr.id ≠ c.correctTrack.id →
      (handleAnswer st tr).isAudioPlaying = false ∧
      (handleAnswer st tr).isFiring = true ∧
      (handleAnswer st tr).pendingGameOverDelay = some gameOverDelayMs ∧
      gameOverDelayMs = 1500 ∧
      (handleAnswer st tr).score = st.score ∧
      (handleAnswer st tr).lastCorrectTrack = some c.correctTrack.name ∧
      (gameOverTimerFire (handleAnswer st tr)).gameState = GameState.GAME_OVER) ∧
    (∀ s : SessionState, (gameOverTimerFire s).gameState = GameState.GAME_OVER) := by
  refine ⟨?_, ?_, fun s => rfl⟩
  · intro album isNew f p hinv c hc
    exact startChallenge_matchInv st album isNew f p hinv c hc
  · intro c tr hch hf hv hlast hwrong
    rw [handleAnswer_wrong_eq st c tr hch hf hv hwrong]
    exact ⟨rfl, rfl, rfl, rfl, rfl, hlast, rfl⟩

def cChal : GameChallenge :=
  { correctTrack := cTrackA, options := [cTrackA, cTrackB], snippetDescription := "v" }

def cPlayState : SessionState :=
  { cBaseState with gameState := .PLAYING, challenge := some cChal,
                    lastCorrectTrack := some "Alpha",
                    currentAlbumTracks := [cTrackA, cTrackB],
                    selectedSource := some cAlbum }

/-- C9 witness: answering "Beta" against correct track "Alpha". -/
theorem c9_wrong_answer_game_over_witness :
    (handleAnswer cPlayState cTrackB).isFiring = true ∧
    (handleAnswer cPlayState cTrackB).pendingGameOverDelay = some 1500 ∧
    (gameOverTimerFire (handleAnswer cPlayState cTrackB)).gameState = GameState.GAME_OVER ∧
    (handleAnswer cPlayState cTrackB).lastCorrectTrack = some cChal.correctTrack.name := by
  have h := (c9_wrong_answer_game_over cPlayState).2.1 cChal cTrackB rfl rfl rfl rfl
    (by decide)
  exact ⟨h.2.1, h.2.2.1, h.2.2.2.2.2.2, h.2.2.2.2.2.1⟩

/-! ## Claim C10 -/

/-- C10: once a round is resolved — firing after a wrong answer, victory
after a correct one, or no challenge present — `handleAnswer` is a complete
no-op (the whole state, hence score, playedTrackIds, flags and game state,
is unchanged); in particular a correct answer can never be scored twice in
one round, because the first correct answer latches the victory flag. -/
theorem c10_resolved_answers_no_op (st : SessionState) (tr tr2 : Track) (c : GameChallenge) :
    ((st.isFiring = true ∨ st.isVictory = true ∨ st.challenge = none) →
      handleAnswer st tr = st) ∧
    (st.challenge = some c → st.isFiring = false → st.isVictory = false →
      tr.id = c.correctTrack.id →
      handleAnswer (handleAnswer st tr) tr2 = handleAnswer st tr) := by
  constructor
  · intro h
    unfold handleAnswer
    cases hc : st.challenge with
    | none => rfl
    | some c' =>
      rcases h with h | h | h
      · simp [h]
      · simp [h]
      · rw [hc] at h
        exact absurd h (by simp)
  · intro hch hf hv hid
    rw [handleAnswer_correct_eq st c tr hch hf hv hid]
    unfold handleAnswer
    simp [hch]

/-- C10 witness: a second answer after victory, and any answer while firing,
change nothing. -/
theorem c10_resolved_answers_no_op_witness :
    handleAnswer { cPlayState with isVictory := true } cTrackB =
      { cPlayState with isVictory := true } ∧
    handleAnswer (handleAnswer cPlayState cTrackA) cTrackB =
      handleAnswer cPlayState cTrackA :=
  ⟨(c10_resolved_answers_no_op { cPlayState with isVictory := true } cTrackB cTrackB cChal).1
      (Or.inr (Or.inl rfl)),
   (c10_resolved_answers_no_op cPlayState cTrackA cTrackB cChal).2 rfl rfl rfl rfl⟩

/-! ## Claim C4 -/

theorem roundStart_score_fields (st : SessionState) (album : Album) (tracks : List Track)
    (played : List String) (snapSel : Option Album) (p : RoundParams) :
    (roundStart st album tracks played snapSel p).score = st.score ∧
    (roundStart st album tracks played snapSel p).highScore = st.highScore ∧
    (roundStart st album tracks played snapSel p).storedHighScore = st.storedHighScore := by
  unfold roundStart
  dsimp only []
  split
  · cases snapSel with
    | some src =>
      have h := markAlbumCompleteS_fields { st with gameState := GameState.SURVIVED } src.id
      exact ⟨h.2.2.1, h.2.2.2.1, h.2.2.2.2.1⟩
    | none => exact ⟨rfl, rfl, rfl⟩
  · split
    · exact ⟨rfl, rfl, rfl⟩
    · split
      · exact ⟨rfl, rfl, rfl⟩
      · exact ⟨rfl, rfl, rfl⟩

theorem startChallenge_score_fields (st : SessionState) (album : Album) (isNew : Bool)
    (f : FetchOutcome) (p : RoundParams) :
    (startChallenge st album isNew f p).score = st.score ∧
    (startChallenge st album isNew f p).highScore = st.highScore ∧
    (startChallenge st album isNew f p).storedHighScore = st.storedHighScore := by
  unfold startChallenge
  dsimp only []
  split
  · split
    · exact ⟨rfl, rfl, rfl⟩
    · split
      · exact ⟨rfl, rfl, rfl⟩
      · exact roundStart_score_fields _ album _ _ _ p
  · exact roundStart_score_fields _ album _ _ _ p

theorem nextRound_score_fields (st : SessionState) (p : RoundParams) :
    (nextRound st p).score = st.score ∧
    (nextRound st p).highScore = st.highScore ∧
    (nextRound st p).storedHighScore = st.storedHighScore := by
  unfold nextRound
  dsimp only []
  split
  · exact startChallenge_score_fields _ _ false .err p
  · exact ⟨rfl, rfl, rfl⟩

theorem handleAnswer_score_fields (st : SessionState) (tr : Track) :
    st.score ≤ (handleAnswer st tr).score ∧
    (handleAnswer st tr).highScore = st.highScore ∧
    (handleAnswer st tr).storedHighScore = st.storedHighScore := by
  unfold handleAnswer
  split
  · exact ⟨Nat.le_refl _, rfl, rfl⟩
  · split
    · exact ⟨Nat.le_refl _, rfl, rfl⟩
    · split
      · exact ⟨Nat.le_add_right _ _, rfl, rfl⟩
      · exact ⟨Nat.le_refl _, rfl, rfl⟩

/-- Every intent handler leaves `highScore` and the stored high score alone
and never decreases `score` (only a correct answer changes it, upward). -/
theorem handleEvent_score_fields (st : SessionState) (e : Event) :
    st.score ≤ (handleEvent st e).score ∧
    (handleEvent st e).highScore = st.highScore ∧
    (handleEvent st e).storedHighScore = st.storedHighScore := by
  cases e with
  | answer tr => exact handleAnswer_score_fields st tr
  | next p => exact ⟨Nat.le_of_eq (nextRound_score_fields st p).1.symm,
      (nextRound_score_fields st p).2.1, (nextRound_score_fields st p).2.2⟩
  | start album isNew f p => exact ⟨Nat.le_of_eq (startChallenge_score_fields st album isNew f p).1.symm,
      (startChallenge_score_fields st album isNew f p).2.1,
      (startChallenge_score_fields st album isNew f p).2.2⟩
  | replay =>
    have hr : handleEvent st .replay = handleReplay st := rfl
    rw [hr]
    unfold handleReplay
    split
    · exact ⟨Nat.le_refl _, rfl, rfl⟩
    · exact ⟨Nat.le_refl _, rfl, rfl⟩
  | snippetTimer =>
    have hr : handleEvent st .snippetTimer = snippetTimerFire st := rfl
    rw [hr]
    unfold snippetTimerFire
    split
    · exact ⟨Nat.le_refl _, rfl, rfl⟩
    · exact ⟨Nat.le_refl _, rfl, rfl⟩
  | gameOverTimer => exact ⟨Nat.le_refl _, rfl, rfl⟩

theorem applyScoreEffect_spec (st : SessionState) :
    (applyScoreEffect st).score = st.score ∧
    (applyScoreEffect st).highScore = max st.highScore st.score ∧
    (applyScoreEffect st).storedHighScore =
      (if st.highScore < st.score then st.score else st.storedHighScore) := by
  unfold applyScoreEffect
  split
  · next h => exact ⟨rfl, (max_eq_right (Nat.le_of_lt h)).symm, rfl⟩
  · next h => exact ⟨rfl, (max_eq_left (Nat.not_lt.mp h)).symm, rfl⟩

theorem step_spec (st : SessionState) (e : Event) :
    st.score ≤ (step st e).score ∧
    (step st e).highScore = max st.highScore (step st e).score ∧
    (step st e).storedHighScore =
      (if st.highScore < (step st e).score then (step st e).score else st.storedHighScore) := by
  have hh := handleEvent_score_fields st e
  have ha := applyScoreEffect_spec (handleEvent st e)
  unfold step
  refine ⟨?_, ?_, ?_⟩
  · rw [ha.1]
    exact hh.1
  · rw [ha.2.1, ha.1, hh.2.1]
  · rw [ha.2.2, ha.1, hh.2.1, hh.2.2]

/-- The combined score/high-score invariant along any event trace. -/
theorem runEvents_inv (evs : List Event) : ∀ st : SessionState,
    st.score ≤ st.highScore → st.storedHighScore ≤ st.highScore →
    (runEvents st evs).score ≤ (runEvents st evs).highScore ∧
    (runEvents st evs).storedHighScore ≤ (runEvents st evs).highScore ∧
    st.highScore ≤ (runEvents st evs).highScore ∧
    st.storedHighScore ≤ (runEvents st evs).storedHighScore ∧
    st.score ≤ (runEvents st evs).score ∧
    (runEvents st evs).highScore = (traceScores st evs).foldl max st.highScore ∧
    ((runEvents st evs).highScore ≠ st.highScore →
      (runEvents st evs).storedHighScore = (runEvents st evs).highScore) := by
  induction evs with
  | nil =>
    intro st h1 h2
    exact ⟨h1, h2, Nat.le_refl _, Nat.le_refl _, Nat.le_refl _, rfl, fun h => absurd rfl h⟩
  | cons e es ih =>
    intro st h1 h2
    have hrun : runEvents st (e :: es) = runEvents (step st e) es := rfl
    have htr : traceScores st (e :: es) = (step st e).score :: traceScores (step st e) es := rfl
    set st1 := step st e with hst1
    have hs := step_spec st e
    have h1' : st1.score ≤ st1.highScore := by
      rw [hs.2.1]
      exact Nat.le_max_right _ _
    have h2' : st1.storedHighScore ≤ st1.highScore := by
      rw [hs.2.2, hs.2.1]
      split
      · exact Nat.le_max_right _ _
      · exact Nat.le_trans h2 (Nat.le_max_left _ _)
    have hih := ih st1 h1' h2'
    rw [hrun, htr]
    refine ⟨hih.1, hih.2.1, ?_, ?_, ?_, ?_, ?_⟩
    · exact Nat.le_trans (hs.2.1 ▸ Nat.le_max_left _ _) hih.2.2.1
    · refine Nat.le_trans ?_ hih.2.2.2.1
      rw [hs.2.2]
      split
      · next h => exact Nat.le_trans h2 (Nat.le_of_lt h)
      · exact Nat.le_refl _
    · exact Nat.le_trans hs.1 hih.2.2.2.2.1
    · rw [List.foldl_cons, hih.2.2.2.2.2.1, hs.2.1]
    · intro hne
      by_cases hsame : st1.highScore = st.highScore
      · exact hih.2.2.2.2.2.2 (fun h => hne (h.trans hsame))
      · have hlt : st.highScore < st1.score := by
          by_contra hnot
          exact hsame (by rw [hs.2.1]; exact max_eq_left (Nat.not_lt.mp hnot))
        have hst1high : st1.highScore = st1.score := by
          rw [hs.2.1]
          exact max_eq_right (Nat.le_of_lt hlt)
        have hst1stored : st1.storedHighScore = st1.highScore := by
          rw [hs.2.2, if_pos hlt, hst1high]
        by_cases hsame2 : (runEvents st1 es).highScore = st1.highScore
        · have hge : st1.storedHighScore ≤ (runEvents st1 es).storedHighScore :=
            hih.2.2.2.1
          rw [hst1stored, hsame2.symm] at hge
          exact Nat.le_antisymm hih.2.1 hge
        · exact hih.2.2.2.2.2.2 hsame2

/-- C4: within a session (traces over the intent alphabet, which excludes
`resetGame`), the score never decreases; after every step the high score
equals the maximum of the initially loaded high score and every score
observed along the trace; the high score and its durable-storage copy never
decrease; and whenever the high score has increased it has been written to
durable storage immediately (the stored copy equals it). -/
theorem c4_score_monotone_highscore (st : SessionState) (evs evs2 : List Event)
    (hsh : st.score ≤ st.highScore) (hst : st.storedHighScore ≤ st.highScore) :
    (runEvents st evs).score ≤ (runEvents st (evs ++ evs2)).score ∧
    (runEvents st evs).highScore = (traceScores st evs).foldl max st.highScore ∧
    st.highScore ≤ (runEvents st evs).highScore ∧
    st.storedHighScore ≤ (runEvents st evs).storedHighScore ∧
    ((runEvents st evs).highScore ≠ st.highScore →
      (runEvents st evs).storedHighScore = (runEvents st evs).highScore) := by
  have h1 := runEvents_inv evs st hsh hst
  have h2 := runEvents_inv evs2 (runEvents st evs) h1.1 h1.2.1
  refine ⟨?_, h1.2.2.2.2.2.1, h1.2.2.1, h1.2.2.2.1, h1.2.2.2.2.2.2⟩
  have happ : runEvents st (evs ++ evs2) = runEvents (runEvents st evs) evs2 := by
    unfold runEvents
    exact List.foldl_append _ _ _ _
  rw [happ]
  exact h2.2.2.2.2.1

/-- C4 witness: one correct HARD answer on a concrete round raises the
score; the high score equals the observed maximum and is persisted. -/
theorem c4_score_monotone_highscore_witness :
    (runEvents cPlayState [Event.answer cTrackA]).score ≤
      (runEvents cPlayState ([Event.answer cTrackA] ++ [Event.gameOverTimer])).score ∧
    (runEvents cPlayState [Event.answer cTrackA]).highScore =
      (traceScores cPlayState [Event.answer cTrackA]).foldl max cPlayState.highScore ∧
    ((runEvents cPlayState [Event.answer cTrackA]).highScore ≠ cPlayState.highScore →
      (runEvents cPlayState [Event.answer cTrackA]).storedHighScore =
        (runEvents cPlayState [Event.answer cTrackA]).highScore) := by
  have h := c4_score_monotone_highscore cPlayState [Event.answer cTrackA]
    [Event.gameOverTimer] (Nat.le_refl 0) (Nat.le_refl 0)
  exact ⟨h.1, h.2.1, h.2.2.2.2⟩

/-! ## Claim C5 -/

theorem addId_not_mem (s : List String) (i : String) (h : i ∉ s) :
    addId s i = s ++ [i] := by
  unfold addId
  rw [if_neg h]

theorem nextRound_some_eq (st : SessionState) (p : RoundParams) (src : Album)
    (hsel : st.selectedSource = some src) :
    nextRound st p =
      startChallenge
        { st with isVictory := false, isFiring := false, isAudioPlaying := false }
        src false FetchOutcome.err p := by
  unfold nextRound
  dsimp only []
  rw [hsel]

/-- Invariant of the correctly-answered-rounds loop: the controller is in a
round of `album` with `k` distinct played tracks, all drawn from `tracks`,
and the current challenge's correct track is a fresh member of `tracks`. -/
def roundInv (album : Album) (tracks : List Track) (k : Nat) (st : SessionState) : Prop :=
  st.gameState = GameState.PLAYING ∧ st.isVictory = false ∧ st.isFiring = false ∧
  st.currentAlbumTracks = tracks ∧ st.selectedSource = some album ∧
  st.completedAlbums = [] ∧
  st.playedTrackIds.Nodup ∧
  (∀ i ∈ st.playedTrackIds, i ∈ tracks.map (fun t => t.id)) ∧
  st.playedTrackIds.length = k ∧
  (∃ c, st.challenge = some c ∧ c.correctTrack ∈ tracks ∧
    c.correctTrack.id ∉ st.playedTrackIds)

theorem correctRoundStep_spec (album : Album) (tracks : List Track)
    (hnodupT : (tracks.map (fun t => t.id)).Nodup)
    (htruthy : ∀ t ∈ tracks, truthyStr t.previewUrl = true)
    (st : SessionState) (p : RoundParams) (k : Nat)
    (hgp : goodParams p)
    (hinv : roundInv album tracks k st)
    (hk : k + 1 ≤ tracks.length) :
    (k + 1 < tracks.length → roundInv album tracks (k + 1) (correctRoundStep st p)) ∧
    (k + 1 = tracks.length →
      (correctRoundStep st p).gameState = GameState.SURVIVED ∧
      (correctRoundStep st p).playedTrackIds.length = tracks.length ∧
      (correctRoundStep st p).completedAlbums = st.completedAlbums ++ [album.id] ∧
      (correctRoundStep st p).storedCompleted = st.completedAlbums ++ [album.id]) := by
  obtain ⟨hgs, hv, hf, hct, hsel, hcomp, hndP, hsubP, hlenP, c, hch, hcm, hcnp⟩ := hinv
  have hstep : correctRoundStep st p = nextRound (handleAnswer st c.correctTrack) p := by
    unfold correctRoundStep
    rw [hch]
  have hans := handleAnswer_correct_eq st c c.correctTrack hch hf hv rfl
  have hplayed := addId_not_mem st.playedTrackIds c.correctTrack.id hcnp
  have hroute : correctRoundStep st p =
      roundStart
        { st with isVictory := false, isFiring := false, isAudioPlaying := false,
                  score := st.score + points st.difficulty,
                  playedTrackIds := st.playedTrackIds ++ [c.correctTrack.id],
                  isQuotaError := false, hasNoSamplesError := false,
                  selectedSource := some album,
                  currentAlbumTracks := tracks }
        album tracks (st.playedTrackIds ++ [c.correctTrack.id]) (some album) p := by
    rw [hstep, hans]
    unfold nextRound
    dsimp only []
    rw [hsel]
    dsimp only []
    rw [startChallenge_false_eq]
    dsimp only []
    rw [hct, hplayed]
  have hndP2 : (st.playedTrackIds ++ [c.correctTrack.id]).Nodup := by
    simp [List.nodup_append, hndP, hcnp]
  have hsubP2 : ∀ i ∈ st.playedTrackIds ++ [c.correctTrack.id],
      i ∈ tracks.map (fun t => t.id) := by
    intro i hi
    rw [List.mem_append] at hi
    rcases hi with hi | hi
    · exact hsubP i hi
    · rw [List.mem_singleton] at hi
      subst hi
      exact List.mem_map_of_mem _ hcm
  have hlen2 : (st.playedTrackIds ++ [c.correctTrack.id]).length = k + 1 := by
    rw [List.length_append, hlenP]
    rfl
  constructor
  · intro hlt
    have hrem : remainingOf tracks (st.playedTrackIds ++ [c.correctTrack.id]) ≠ [] := by
      intro hnil
      have hids : ∀ i ∈ tracks.map (fun t => t.id),
          i ∈ st.playedTrackIds ++ [c.correctTrack.id] := by
        intro i hi
        obtain ⟨t, ht, rfl⟩ := List.mem_map.mp hi
        have h2 := List.filter_eq_nil.mp hnil t ht
        simp only [decide_eq_true_eq, Decidable.not_not, List.mem_append,
          List.mem_singleton] at h2 ⊢
        tauto
      have hsp := List.subperm_of_subset hnodupT hids
      have hle := hsp.length_le
      rw [List.length_map, hlen2] at hle
      omega
    obtain ⟨healed, heq, hmemT, hnp, htp, hmo, hos, hl1, hl4⟩ :=
      roundStart_success _ album tracks (st.playedTrackIds ++ [c.correctTrack.id])
        (some album) p hrem hnodupT htruthy hgp
    rw [hroute, heq]
    exact ⟨rfl, rfl, rfl, rfl, rfl, hcomp, hndP2, hsubP2, hlen2,
      healed, rfl, hmemT, hnp⟩
  · intro hkN
    have hremnil : remainingOf tracks (st.playedTrackIds ++ [c.correctTrack.id]) = [] := by
      have hsp := List.subperm_of_subset hndP2 hsubP2
      have hperm := hsp.perm_of_length_le (by rw [List.length_map, hlen2, hkN])
      unfold remainingOf
      rw [List.filter_eq_nil]
      intro t ht
      simp only [decide_eq_true_eq, Decidable.not_not]
      exact hperm.mem_iff.mpr (List.mem_map_of_mem _ ht)
    rw [hroute, roundStart_exhausted _ album tracks _ (some album) p hremnil]
    dsimp only []
    unfold markAlbumCompleteS
    rw [if_neg (show ¬ album.id ∈ st.completedAlbums by
      rw [hcomp]; exact List.not_mem_nil _)]
    refine ⟨rfl, ?_, rfl, rfl⟩
    rw [show (st.playedTrackIds ++ [c.correctTrack.id]).length = k + 1 from hlen2, hkN]

theorem playFrom_spec (album : Album) (tracks : List Track)
    (hnodupT : (tracks.map (fun t => t.id)).Nodup)
    (htruthy : ∀ t ∈ tracks, truthyStr t.previewUrl = true)
    (ps : List RoundParams) :
    ∀ (k : Nat) (st : SessionState),
      (∀ p ∈ ps, goodParams p) → roundInv album tracks k st →
      k + ps.length = tracks.length → ps ≠ [] →
      (playFrom st ps).gameState = GameState.SURVIVED ∧
      (playFrom st ps).playedTrackIds.length = tracks.length ∧
      (playFrom st ps).completedAlbums = [album.id] ∧
      (playFrom st ps).storedCompleted = [album.id] := by
  induction ps with
  | nil =>
    intro k st _ _ _ hne
    exact absurd rfl hne
  | cons p ps ih =>
    intro k st hgood hinv hlen _
    have hcomp := hinv.2.2.2.2.2.1
    have hk : k + 1 ≤ tracks.length := by
      simp only [List.length_cons] at hlen
      omega
    have hstep := correctRoundStep_spec album tracks hnodupT htruthy st p k
      (hgood p (List.mem_cons_self p ps)) hinv hk
    cases ps with
    | nil =>
      have hkN : k + 1 = tracks.length := by
        simp only [List.length_cons, List.length_nil] at hlen
        omega
      have h := hstep.2 hkN
      have hfin : playFrom st [p] = correctRoundStep st p := rfl
      rw [hfin]
      rw [hcomp] at h
      exact ⟨h.1, h.2.1, by rw [h.2.2.1]; rfl, by rw [h.2.2.2]; rfl⟩
    | cons q qs =>
      have hlt : k + 1 < tracks.length := by
        simp only [List.length_cons] at hlen
        omega
      have hinv2 := hstep.1 hlt
      have hrun : playFrom st (p :: q :: qs) = playFrom (correctRoundStep st p) (q :: qs) := rfl
      rw [hrun]
      refine ih (k + 1) (correctRoundStep st p)
        (fun r hr => hgood r (List.mem_cons_of_mem p hr)) hinv2 ?_ (by simp)
      simp only [List.length_cons] at hlen ⊢
      omega

/-- C5: for an album loaded with N playable, distinct-id tracks, after N
correctly-answered rounds with no skips the next round-start finds the
remaining-track set empty, transitions to SURVIVED with `playedTrackIds` of
size N, marks the album id complete exactly once (starting from an empty
ledger), and marking again is a no-op. -/
theorem c5_round_robin_exhaustion (st0 : SessionState) (album : Album)
    (fetched : List Track) (p0 : RoundParams) (ps : List RoundParams)
    (hnodup : ((fetched.filter (fun t => truthyStr t.previewUrl)).map (fun t => t.id)).Nodup)
    (htrne : fetched.filter (fun t => truthyStr t.previewUrl) ≠ [])
    (hv : st0.isVictory = false) (hf : st0.isFiring = false)
    (hcomp : st0.completedAlbums = [])
    (hp0 : goodParams p0) (hps : ∀ p ∈ ps, goodParams p)
    (hlen : ps.length = (fetched.filter (fun t => truthyStr t.previewUrl)).length) :
    (playFrom (startChallenge st0 album true (.ok fetched) p0) ps).gameState =
      GameState.SURVIVED ∧
    (playFrom (startChallenge st0 album true (.ok fetched) p0) ps).playedTrackIds.length =
      (fetched.filter (fun t => truthyStr t.previewUrl)).length ∧
    (playFrom (startChallenge st0 album true (.ok fetched) p0) ps).completedAlbums =
      [album.id] ∧
    markAlbumCompleteS (playFrom (startChallenge st0 album true (.ok fetched) p0) ps)
        album.id =
      playFrom (startChallenge st0 album true (.ok fetched) p0) ps := by
  have htruthy : ∀ t ∈ fetched.filter (fun t => truthyStr t.previewUrl),
      truthyStr t.previewUrl = true := fun t ht => (List.mem_filter.mp ht).2
  have hrem0 : remainingOf (fetched.filter (fun t => truthyStr t.previewUrl)) [] ≠ [] := by
    rw [remainingOf_nil]
    exact htrne
  rw [startChallenge_true_ok_eq st0 album fetched p0 htrne]
  obtain ⟨healed, heq, hmemT, hnp, htp, hmo, hos, hl1, hl4⟩ :=
    roundStart_success _ album (fetched.filter (fun t => truthyStr t.previewUrl)) []
      st0.selectedSource p0 hrem0 hnodup htruthy hp0
  rw [heq]
  have hinv0 : roundInv album (fetched.filter (fun t => truthyStr t.previewUrl)) 0
      { { st0 with isQuotaError := false, hasNoSamplesError := false,
                   selectedSource := some album,
                   currentAlbumTracks := fetched.filter (fun t => truthyStr t.previewUrl),
                   playedTrackIds := [], replaysRemaining := 2 } with
        challenge := some healed,
        lastCorrectTrack := some healed.correctTrack.name,
        gameState := GameState.PLAYING,
        isAudioPlaying := true } := by
    exact ⟨rfl, hv, hf, rfl, rfl, hcomp, List.nodup_nil, fun i hi => absurd hi (List.not_mem_nil i),
      rfl, healed, rfl, hmemT, List.not_mem_nil _⟩
  have hne : ps ≠ [] := by
    intro h
    rw [h] at hlen
    have := List.length_pos.mpr htrne
    simp at hlen
    omega
  have hmain := playFrom_spec album (fetched.filter (fun t => truthyStr t.previewUrl))
    hnodup htruthy ps 0 _ hps hinv0 (by omega) hne
  refine ⟨hmain.1, hmain.2.1, hmain.2.2.1, ?_⟩
  unfold markAlbumCompleteS
  rw [if_pos (by rw [hmain.2.2.1]; exact List.mem_cons_self _ _)]

/-- C5 witness: a concrete two-track album played to exhaustion. -/
theorem c5_round_robin_exhaustion_witness :
    (playFrom (startChallenge cBaseState cAlbum true (.ok [cTrackA, cTrackB])
        (idParams (.success cRespGood)))
      [idParams (.success cRespGood), idParams (.success cRespGood)]).gameState =
        GameState.SURVIVED ∧
    (playFrom (startChallenge cBaseState cAlbum true (.ok [cTrackA, cTrackB])
        (idParams (.success cRespGood)))
      [idParams (.success cRespGood), idParams (.success cRespGood)]).playedTrackIds.length =
        2 ∧
    (playFrom (startChallenge cBaseState cAlbum true (.ok [cTrackA, cTrackB])
        (idParams (.success cRespGood)))
      [idParams (.success cRespGood), idParams (.success cRespGood)]).completedAlbums =
        ["alb1"] := by
  have hgood : ∀ q ∈ [idParams (.success cRespGood), idParams (.success cRespGood)],
      goodParams q := by
    intro q hq
    rcases List.mem_cons.mp hq with rfl | hq2
    · exact idParams_good _ rfl
    · rcases List.mem_cons.mp hq2 with rfl | hq3
      · exact idParams_good _ rfl
      · exact absurd hq3 (List.not_mem_nil q)
  have h := c5_round_robin_exhaustion cBaseState cAlbum [cTrackA, cTrackB]
    (idParams (.success cRespGood))
    [idParams (.success cRespGood), idParams (.success cRespGood)]
    (by decide) (by decide) rfl rfl rfl (idParams_good _ rfl) hgood (by decide)
  refine ⟨h.1, ?_, h.2.2.1⟩
  have h2 := h.2.1
  simpa using h2

end MusicGame
